import Mathlib

set_option maxRecDepth 4000

/-!
Shallow embedding of the Cypher query validator of `k8s-ariadne-rs`
(`src/python/agent/src/k8s_graph_agent/graph_schema.py` and
`src/python/agent/src/k8s_graph_agent/cypher_validator/`).

Modelling conventions:
* Python strings are `List Char` (`Str`).  All inputs considered are ASCII, so
  `Char.toUpper` / `Char.toLower` and the ASCII space/alnum predicates below
  agree with Python's `str.upper` / `str.lower` / `str.isspace` / `str.isalnum`.
* A Python `frozenset` has no specified iteration order: CPython enumerates it
  in hash-table order, and string hashes are randomized per process
  (`PYTHONHASHSEED`).  A `GraphSchema` value therefore carries one concrete
  enumeration (a duplicate-free list) of each pair set; distinct enumerations
  of the same sets model the same schema as observed by different processes.
* The ANTLR parser (`antlr4_cypher`, an external package, not part of this
  repository) is modelled as a parameter `ParseFn`; an `AstView` carries the
  two projections of a parse tree the validator uses: the `getText` of every
  `functioninvocation` rule context and the `(rule_path, getText)` of every
  pattern (`patternpart` / `patternelement`) rule context.
* Index-based `while` loops are translated to recursions over an explicit
  fuel argument.  In every such loop the measure `text.length - i` strictly
  decreases on each step (indices advance by at least one, and recursive calls
  on brace/paren bodies act on strict sub-slices), so the initial fuel
  `text.length + 1` is never exhausted; the fuel-zero branches are unreachable.
-/

namespace Ariadne

abbrev Str := List Char

def str (s : String) : Str := s.toList

/-- the single-quote character (codepoint 39). -/
def sq : Char := Char.ofNat 39

/-- the backtick character (codepoint 96). -/
def btChar : Char := Char.ofNat 96

/-- left curly brace (codepoint 123). -/
def obr : Char := Char.ofNat 123

/-- right curly brace (codepoint 125). -/
def cbr : Char := Char.ofNat 125

/-- backslash (codepoint 92). -/
def bsl : Char := Char.ofNat 92

/-- sentinel returned by `List.getD` for an out-of-range index. -/
def nul : Char := Char.ofNat 0

/-- ASCII fragment of Python `str.isspace` (also the regex `\s` class). -/
def pyIsSpace (c : Char) : Bool :=
  c = ' ' || c = Char.ofNat 9 || c = Char.ofNat 10 || c = Char.ofNat 13 ||
    c = Char.ofNat 11 || c = Char.ofNat 12

/-- ASCII fragment of Python `str.isalnum`. -/
def pyIsAlnum (c : Char) : Bool := c.isAlpha || c.isDigit

/-- a regex word character (`\w`): alphanumeric or underscore. -/
def isWordChar (c : Char) : Bool := pyIsAlnum c || c = '_'

/-- Python slice `text[a:b]` (with clamping). -/
def slice (l : Str) (a b : Nat) : Str := (l.drop a).take (b - a)

/-- Python slice `text[a:]`. -/
def sliceFrom (l : Str) (a : Nat) : Str := l.drop a

/-- `pat` is a prefix of `l`. -/
def startsWithChars : Str → Str → Bool
  | [], _ => true
  | _ :: _, [] => false
  | p :: ps, c :: cs => p == c && startsWithChars ps cs

/-- Python substring containment `pat in l`. -/
def substrIn (pat : Str) : Str → Bool
  | [] => pat.isEmpty
  | c :: t => startsWithChars pat (c :: t) || substrIn pat t

/-- `text.upper().startswith(pat, i)` for an already-uppercase `pat`. -/
def upperStartsWithAt (text : Str) (i : Nat) (pat : Str) : Bool :=
  (slice text i (i + pat.length)).map Char.toUpper == pat

def stripLeadWhile (p : Char → Bool) (l : Str) : Str := l.dropWhile p

def stripTrailWhile (p : Char → Bool) (l : Str) : Str :=
  (l.reverse.dropWhile p).reverse

/-- Python `str.strip()` (whitespace both ends). -/
def pyStrip (l : Str) : Str := stripTrailWhile pyIsSpace (stripLeadWhile pyIsSpace l)

/-- Python `str.rstrip()`. -/
def pyRstrip (l : Str) : Str := stripTrailWhile pyIsSpace l

/-- Python `str.strip(cs)` for a set of characters. -/
def stripChars (cs : List Char) (l : Str) : Str :=
  stripTrailWhile (fun c => cs.contains c) (stripLeadWhile (fun c => cs.contains c) l)

/-- Python `str.rstrip(c)` for a single character. -/
def rstripChar (c : Char) (l : Str) : Str := stripTrailWhile (fun x => x == c) l

/-- Python `str.split(sep)` on a single-character separator (keeps empties). -/
def pySplitChar (sep : Char) : Str → List Str
  | [] => [[]]
  | c :: t =>
    match pySplitChar sep t with
    | [] => if c == sep then [[], []] else [[c]]
    | h :: rt => if c == sep then [] :: h :: rt else (c :: h) :: rt

/-- the remainder after the first occurrence of `c` (Python `split(c, 1)[1]`). -/
def afterFirstChar (c : Char) : Str → Option Str
  | [] => none
  | x :: t => if x == c then some t else afterFirstChar c t

/-- Python `s.split()[0]`: the first whitespace-delimited token. -/
def firstTok (l : Str) : Str :=
  (l.dropWhile pyIsSpace).takeWhile (fun c => !pyIsSpace c)

/-- Python `name.split(".")[-1]`. -/
def lastDotComponent (l : Str) : Str :=
  (l.reverse.takeWhile (fun c => c != '.')).reverse

end Ariadne

namespace Ariadne

/-!  `graph_schema.py`.  The field `relationships` models the Python
`dict[str, frozenset[tuple[str, str]]]`: association-list entries in dict
insertion order, each pair set given by one concrete duplicate-free
enumeration (frozenset iteration order, which CPython does not specify and
which varies with the per-process hash seed). -/

structure GraphSchema where
  relationships : List (Str × List (Str × Str))
deriving DecidableEq

/-- Python `dict.get(rel, frozenset())` on the relationships mapping. -/
def lookupPairs : List (Str × List (Str × Str)) → Str → List (Str × Str)
  | [], _ => []
  | (r, ps) :: t, rel => if r = rel then ps else lookupPairs t rel

def GraphSchema.pairsFor (s : GraphSchema) (rel : Str) : List (Str × Str) :=
  lookupPairs s.relationships rel

/-- `GraphSchema.allows`: membership of `(src, dst)` in the pair set. -/
def GraphSchema.allows (s : GraphSchema) (relType srcLabel dstLabel : Str) : Bool :=
  decide ((srcLabel, dstLabel) ∈ s.pairsFor relType)

/-- one step of `mapping.setdefault(rel, set()).add((src, dst))`; the list
enumerating the set here grows in first-insertion order, which is one of the
possible frozenset enumerations. -/
def insertEdge : List (Str × List (Str × Str)) → Str → (Str × Str) →
    List (Str × List (Str × Str))
  | [], rel, p => [(rel, [p])]
  | (r, ps) :: t, rel, p =>
    if r = rel then (r, if p ∈ ps then ps else ps ++ [p]) :: t
    else (r, ps) :: insertEdge t rel p

/-- `GraphSchema.from_edges` (edges are `(src, rel, dst)` triples). -/
def GraphSchema.fromEdges (edges : List (Str × Str × Str)) : GraphSchema :=
  ⟨edges.foldl (fun m e => insertEdge m e.2.1 (e.1, e.2.2)) []⟩

/-!  `cypher_validator/schema_rules.py`. -/

def dirBoth : Str := str "both"
def dirLtr : Str := str "left_to_right"
def dirRtl : Str := str "right_to_left"
def dirUnd : Str := str "undirected"

/-- `_direction_from_match`. -/
def directionFromMatch (leftDir rightDir : Str) : Str :=
  if leftDir == str "<-" && rightDir == str "->" then dirBoth
  else if leftDir == str "<-" then dirRtl
  else if rightDir == str "->" then dirLtr
  else dirUnd

/-- `_is_allowed`. -/
def isAllowed (s : GraphSchema) (relTypes : List Str)
    (leftLabels rightLabels : List Str) (direction : Str) : Bool :=
  relTypes.any fun t =>
    ((direction == dirLtr || direction == dirBoth || direction == dirUnd) &&
      leftLabels.any fun l => rightLabels.any fun r => s.allows t l r) ||
    ((direction == dirRtl || direction == dirBoth || direction == dirUnd) &&
      leftLabels.any fun l => rightLabels.any fun r => s.allows t r l)

/-- the accumulator step of `_allowed_pairs`: append each pair not yet seen. -/
def dedupAppend (acc : List (Str × Str)) (ps : List (Str × Str)) : List (Str × Str) :=
  ps.foldl (fun a p => if p ∈ a then a else a ++ [p]) acc

/-- `_allowed_pairs`. -/
def allowedPairs (s : GraphSchema) (relTypes : List Str) : List (Str × Str) :=
  relTypes.foldl (fun acc t => dedupAppend acc (s.pairsFor t)) []

/-!  `cypher_validator/text_utils.py`. -/

/-- one step of `_strip_string_literals`: state `(inString, escape)`. -/
def stripSLGo : Str → Bool → Bool → Str
  | [], _, _ => []
  | c :: t, inString, escape =>
    if inString then
      if escape then ' ' :: stripSLGo t true false
      else if c = bsl then ' ' :: stripSLGo t true true
      else if c = sq then ' ' :: stripSLGo t false false
      else ' ' :: stripSLGo t true false
    else if c = sq then ' ' :: stripSLGo t true false
    else c :: stripSLGo t false false

/-- `_strip_string_literals`. -/
def stripStringLiterals (text : Str) : Str := stripSLGo text false false

/-- `_looks_like_pattern_expression`. -/
def looksLikePattern (text : Str) : Bool :=
  [str "-[:", str "<-[", str "]-", str "->", str "<-", str ")-", str "-("].any
    fun tok => substrIn tok text

/-- `_is_word_boundary(text, s, e)` (Python `isalnum` or underscore). -/
def isWordBoundaryAt (text : Str) (s e : Nat) : Bool :=
  !(s > 0 && isWordChar (text.getD (s - 1) nul)) &&
    !(e < text.length && isWordChar (text.getD e nul))

end Ariadne

namespace Ariadne

/-!  `cypher_validator/model.py`. -/

structure NodeUse where
  text : Str
  var : Option Str
  labels : List Str
deriving DecidableEq

structure RelationshipUse where
  left_node : Str
  right_node : Str
  rel_text : Str
  left_dir : Str
  right_dir : Str
  left_var : Option Str
  right_var : Option Str
  left_labels : List Str
  right_labels : List Str
deriving DecidableEq

structure SchemaViolation where
  rel_type : Str
  left_labels : List Str
  right_labels : List Str
  direction : Str
  snippet : Str
  rule_path : Str
  allowed_pairs : List (Str × Str)
deriving DecidableEq

/-!  `cypher_validator/extract.py`. -/

/-- `_extract_rel_types`. -/
def extractRelTypes (relText : Str) : List Str :=
  let trimmed := pyStrip (relText.takeWhile (fun c => c != obr))
  if !(trimmed.contains ':') then []
  else
    match afterFirstChar ':' trimmed with
    | none => []
    | some afterColon =>
      let relPart := pyStrip (afterColon.takeWhile (fun c => c != '*'))
      if relPart.isEmpty then []
      else
        let parts := ((pySplitChar '|' relPart).map pyStrip).filter
          (fun p => !p.isEmpty)
        (parts.map firstTok).filter (fun t => !t.isEmpty)

/-- `_parse_node`. -/
def parseNode (nodeText : Str) : NodeUse :=
  let trimmed := pyStrip (nodeText.takeWhile (fun c => c != obr))
  if trimmed.isEmpty then ⟨nodeText, none, []⟩
  else
    let parts := (pySplitChar ':' trimmed).map pyStrip
    let varPart := pyStrip parts.headI
    let labels0 := parts.tail
    let var : Option Str :=
      if varPart.isEmpty then none else some (stripChars [btChar, ' '] varPart)
    let cleaned :=
      (labels0.filter (fun l => !(pyStrip l).isEmpty)).map (stripChars [btChar, ' '])
    ⟨nodeText, var, cleaned⟩

/-- `_consume_group(text, start, openc, closec)`: the scan stops at the first
`closeChar` after `start` (or at the end of the text); returns the enclosed
text and the stop index. -/
def consumeGroup (text : Str) (start : Nat) (closeChar : Char) : Str × Nat :=
  let grp := (text.drop (start + 1)).takeWhile (fun c => c != closeChar)
  (grp, start + 1 + grp.length)

/-- `_read_left_dir`: look backward from the `[` at `relStart`, skipping
whitespace. -/
def readLeftDir (text : Str) (relStart : Nat) : Str :=
  match ((text.take relStart).reverse).dropWhile pyIsSpace with
  | '-' :: '<' :: _ => str "<-"
  | '-' :: _ => str "-"
  | _ => str "-"

/-- `_read_right_dir`: look forward from just past the `]` at `relEnd`,
skipping whitespace. -/
def readRightDir (text : Str) (relEnd : Nat) : Str :=
  match (text.drop (relEnd + 1)).dropWhile pyIsSpace with
  | '-' :: '>' :: _ => str "->"
  | '-' :: _ => str "-"
  | _ => str "-"

/-- the loop of `_iter_relationships` (over the literal-stripped text); the
state is the current index, the node last seen and the pending half-built
relationship. -/
def iterRelsGo (fuel : Nat) (text : Str) (i : Nat) (lastNode : Option NodeUse)
    (pending : Option RelationshipUse) (acc : List RelationshipUse) :
    List RelationshipUse :=
  match fuel with
  | 0 => acc
  | fuel + 1 =>
    if i < text.length then
      let c := text.getD i nul
      if c = '(' then
        let g := consumeGroup text i ')'
        let node := parseNode g.1
        let acc' :=
          match pending with
          | some p =>
            acc ++ [{ p with
                right_node := g.1
                right_var := node.var
                right_labels := node.labels }]
          | none => acc
        iterRelsGo fuel text (g.2 + 1) (some node) none acc'
      else if c = '[' then
        let g := consumeGroup text i ']'
        let pending' :=
          match lastNode with
          | some ln =>
            some { left_node := ln.text, right_node := [], rel_text := g.1,
                   left_dir := readLeftDir text i, right_dir := readRightDir text g.2,
                   left_var := ln.var, right_var := none,
                   left_labels := ln.labels, right_labels := [] }
          | none => pending
        iterRelsGo fuel text (g.2 + 1) lastNode pending' acc
      else iterRelsGo fuel text (i + 1) lastNode pending acc
    else acc

/-- `_iter_relationships`. -/
def iterRelationships (cypher : Str) : List RelationshipUse :=
  let text := stripStringLiterals cypher
  iterRelsGo (text.length + 1) text 0 none none []

/-- the loop of `_iter_nodes`. -/
def iterNodesGo (fuel : Nat) (text : Str) (i : Nat) (acc : List NodeUse) :
    List NodeUse :=
  match fuel with
  | 0 => acc
  | fuel + 1 =>
    if i < text.length then
      if text.getD i nul = '(' then
        let g := consumeGroup text i ')'
        iterNodesGo fuel text (g.2 + 1) (acc ++ [parseNode g.1])
      else iterNodesGo fuel text (i + 1) acc
    else acc

/-- `_iter_nodes`. -/
def iterNodes (cypher : Str) : List NodeUse :=
  let text := stripStringLiterals cypher
  iterNodesGo (text.length + 1) text 0 []

/-- Python truthiness of the optional variable name (`None` and the empty
string are falsy). -/
def varTruthy : Option Str → Bool
  | none => false
  | some v => !v.isEmpty

/-- a set-union update of the per-variable label set, enumerated in
first-insertion order (one possible enumeration of the Python `set`). -/
def unionLabels (cur : List Str) (ls : List Str) : List Str :=
  ls.foldl (fun a l => if l ∈ a then a else a ++ [l]) cur

/-- `labels_by_var.setdefault(var, set()).update(labels)`. -/
def addVarLabels : List (Str × List Str) → Str → List Str → List (Str × List Str)
  | [], v, ls => [(v, unionLabels [] ls)]
  | (w, cur) :: t, v, ls =>
    if w = v then (w, unionLabels cur ls) :: t
    else (w, cur) :: addVarLabels t v ls

/-- `_collect_variable_labels`.  The Python result maps each variable to a
`frozenset[str]`; here each set is stored as a canonical duplicate-free list
(first-insertion order).  That stored order is *not* observable by itself:
the only place the program enumerates one of these sets is the
`tuple(variable_labels[var])` call in `_resolve_labels`, which is modelled
by the explicit enumeration parameter `enumL` of `resolveLabels`. -/
def collectVariableLabels (patternTexts : List Str) : List (Str × List Str) :=
  patternTexts.foldl
    (fun m pt =>
      (iterNodes pt).foldl
        (fun m' n =>
          if varTruthy n.var && !n.labels.isEmpty then
            addVarLabels m' (n.var.getD []) n.labels
          else m')
        m)
    []

/-- association-list lookup (`var in variable_labels` + indexing). -/
def lookupVar : List (Str × List Str) → Str → Option (List Str)
  | [], _ => none
  | (w, ls) :: t, v => if w = v then some ls else lookupVar t v

/-- `_resolve_labels`.  The Python code returns `tuple(variable_labels[var])`,
enumerating a `frozenset[str]`; CPython's enumeration order is hash-table
order and string hashes are salted per process, so it is process-dependent.
`enumL` is that process's enumeration: applied to the canonical stored list,
it yields the order `tuple(...)` observes (any permutation, for some
process; see `IsSetEnum`). -/
def resolveLabels (enumL : List Str → List Str) (explicit : List Str)
    (var : Option Str) (varLabels : List (Str × List Str)) : List Str :=
  if !explicit.isEmpty then explicit
  else if varTruthy var then
    match lookupVar varLabels (var.getD []) with
    | some ls => enumL ls
    | none => []
  else []

/-- `enumL` faithfully enumerates each set: its output is a permutation of
the stored canonical list.  Every permutation arises from some such
function, so quantifying over `IsSetEnum` functions captures exactly the
process-dependence of `tuple(frozenset)`. -/
def IsSetEnum (enumL : List Str → List Str) : Prop :=
  ∀ ls : List Str, List.Perm (enumL ls) ls

/-- the identity enumeration (the canonical process). -/
def idE : List Str → List Str := fun ls => ls

/-- the reversed enumeration (another possible process). -/
def revE : List Str → List Str := fun ls => ls.reverse

/-- `_format_snippet`. -/
def formatSnippet (ru : RelationshipUse) : Str :=
  str "(" ++ ru.left_node ++ str ")" ++ ru.left_dir ++ str "[" ++ ru.rel_text ++
    str "]" ++ ru.right_dir ++ str "(" ++ ru.right_node ++ str ")"

end Ariadne

namespace Ariadne

/-!  `cypher_validator/compatibility.py`.  The textual rules are `re.search`
calls on the literal-stripped text; each regex is transcribed as an explicit
scan over all start positions. -/

/-- a single-quote as a one-character string piece. -/
def sqS : Str := [sq]

def msgNotLabel : Str := str "NOT label expressions (:!Label) are not supported"
def msgShortest : Str := str "SHORTEST keyword is not supported; use Memgraph path syntax"
def msgCount : Str := str "COUNT subqueries are not supported"
def msgCollect : Str := str "COLLECT subqueries are not supported"
def msgIsType : Str := str "Type predicate " ++ sqS ++ str "IS ::" ++ sqS ++ str " is not supported"
def msgOctal : Str := str "Octal integer literals (0o...) are not supported"
def msgNanInf : Str := str "NaN/Inf/Infinity float literals are not supported"
def msgFixedLen : Str := str "Fixed-length patterns using " ++ sqS ++ str "\x7bn\x7d" ++ sqS ++ str " are not supported"
def msgCaseWhen : Str := str "CASE WHEN with multiple values (comma-separated) is not supported"
def msgExistsProp : Str := str "exists(n.property) is not supported; use IS NOT NULL"
def msgPatternExpr : Str := str "Patterns in expressions are not supported (except EXISTS(pattern))"

/-- the f-string `Function '<name>' is not supported`. -/
def mkFnMsg (name : Str) : Str :=
  str "Function " ++ sqS ++ name ++ sqS ++ str " is not supported"

/-- `_UNSUPPORTED_FUNCTIONS`. -/
def unsupportedFunctions : List Str :=
  [str "tobooleanlist", str "tobooleanornull", str "tofloatlist",
   str "tofloatornull", str "tointegerlist", str "tointegerornull",
   str "tostringlist", str "isempty", str "elementid", str "nullif",
   str "percentilecont", str "percentiledisc", str "stdev", str "stdevp",
   str "isnan", str "cot", str "degrees", str "haversin", str "radians",
   str "normalize", str "time", str "shortestpath", str "allshortestpaths"]

/-- does some start position in `text` satisfy `p`. -/
def anyPos (text : Str) (p : Nat → Bool) : Bool := (List.range text.length).any p

/-- the character at `i` is a regex word character. -/
def wordCharAt (text : Str) (i : Nat) : Bool :=
  i < text.length && isWordChar (text.getD i nul)

/-- regex `\b` before a word character at position `i`. -/
def bndBefore (text : Str) (i : Nat) : Bool := !(i > 0 && wordCharAt text (i - 1))

/-- regex `\b` after a word character ending at position `j`. -/
def bndAfter (text : Str) (j : Nat) : Bool := !(wordCharAt text j)

/-- the first non-`\s` position at or after `j`. -/
def skipWsFrom (text : Str) (j : Nat) : Nat :=
  j + ((text.drop j).takeWhile pyIsSpace).length

/-- `re.search(r"\bKW\b", text, re.IGNORECASE)` for a word `w` (uppercase). -/
def searchWordCIIn (text : Str) (w : Str) : Bool :=
  anyPos text fun i =>
    bndBefore text i && upperStartsWithAt text i w && bndAfter text (i + w.length)

/-- `re.search(r"\bKW\s*\{", text, re.IGNORECASE)`. -/
def searchKwThenBrace (text : Str) (w : Str) : Bool :=
  anyPos text fun i =>
    bndBefore text i && upperStartsWithAt text i w &&
      text.getD (skipWsFrom text (i + w.length)) nul = obr

/-- `re.search(r"\bIS\s*::", text, re.IGNORECASE)`. -/
def searchIsColons (text : Str) : Bool :=
  anyPos text fun i =>
    bndBefore text i && upperStartsWithAt text i (str "IS") &&
      startsWithChars (str "::") (text.drop (skipWsFrom text (i + 2)))

def isOctDigit (c : Char) : Bool := decide ('0' ≤ c) && decide (c ≤ '7')

/-- `re.search(r"\b0o[0-7]+\b", text, re.IGNORECASE)`; the trailing `\b` can
only hold after the maximal octal-digit run, since octal digits are word
characters. -/
def searchOctal (text : Str) : Bool :=
  anyPos text fun i =>
    bndBefore text i && text.getD i nul = '0' &&
      (text.getD (i + 1) nul = 'o' || text.getD (i + 1) nul = 'O') &&
      (let run := (text.drop (i + 2)).takeWhile isOctDigit
       !run.isEmpty && bndAfter text (i + 2 + run.length))

/-- `re.search(r"\b(NaN|Inf|Infinity)\b", text, re.IGNORECASE)`. -/
def searchNanInf (text : Str) : Bool :=
  anyPos text fun i =>
    bndBefore text i &&
      ((upperStartsWithAt text i (str "NAN") && bndAfter text (i + 3)) ||
       (upperStartsWithAt text i (str "INF") && bndAfter text (i + 3)) ||
       (upperStartsWithAt text i (str "INFINITY") && bndAfter text (i + 8)))

/-- `re.search(r"(\]|-)\s*\{\s*\d", text)`. -/
def searchFixedLen (text : Str) : Bool :=
  anyPos text fun i =>
    (text.getD i nul = ']' || text.getD i nul = '-') &&
      (let j := skipWsFrom text (i + 1)
       text.getD j nul = obr &&
         (text.getD (skipWsFrom text (j + 1)) nul).isDigit)

/-- the loop of `_case_when_has_multiple_values` (depth counters use
`max(0, d - 1)`, i.e. truncated subtraction). -/
def caseWhenGo (fuel : Nat) (text : Str) (i : Nat) (dp db dc : Nat)
    (inWhen commaInWhen : Bool) : Bool :=
  match fuel with
  | 0 => false
  | fuel + 1 =>
    if i < text.length then
      let c := text.getD i nul
      let dp' := if c = '(' then dp + 1 else if c = ')' then dp - 1 else dp
      let db' := if c = '[' then db + 1 else if c = ']' then db - 1 else db
      let dc' := if c = obr then dc + 1 else if c = cbr then dc - 1 else dc
      if dp' = 0 && db' = 0 && dc' = 0 then
        if upperStartsWithAt text i (str "WHEN") then
          caseWhenGo fuel text (i + 4) dp' db' dc' true false
        else if inWhen && upperStartsWithAt text i (str "THEN") then
          if commaInWhen then true
          else caseWhenGo fuel text (i + 4) dp' db' dc' false commaInWhen
        else if inWhen && c = ',' then
          caseWhenGo fuel text (i + 1) dp' db' dc' inWhen true
        else caseWhenGo fuel text (i + 1) dp' db' dc' inWhen commaInWhen
      else caseWhenGo fuel text (i + 1) dp' db' dc' inWhen commaInWhen
    else false

/-- `_case_when_has_multiple_values`. -/
def caseWhenMulti (text : Str) : Bool :=
  caseWhenGo (text.length + 1) text 0 0 0 0 false false

/-- `_split_function_invocation`. -/
def splitFnInvocation (text : Str) : Str × Str :=
  let name := text.takeWhile (fun c => c != '(')
  if name.length = text.length then (text, [])
  else
    let args0 := text.drop (name.length + 1)
    let args := if text.getLast? == some ')' then args0.dropLast else args0
    (lastDotComponent name, args)

/-- the textual compatibility rules, in source order, on the
literal-stripped text. -/
def textualIssuesOf (stripped : Str) : List Str :=
  (if substrIn (str ":!") stripped then [msgNotLabel] else []) ++
  (if searchWordCIIn stripped (str "SHORTEST") then [msgShortest] else []) ++
  (if searchKwThenBrace stripped (str "COUNT") then [msgCount] else []) ++
  (if searchKwThenBrace stripped (str "COLLECT") then [msgCollect] else []) ++
  (if searchIsColons stripped then [msgIsType] else []) ++
  (if searchOctal stripped then [msgOctal] else []) ++
  (if searchNanInf stripped then [msgNanInf] else []) ++
  (if searchFixedLen stripped then [msgFixedLen] else []) ++
  (if caseWhenMulti stripped then [msgCaseWhen] else [])

/-- the textual layer of `_find_compatibility_issues` on the raw query. -/
def textualIssues (text : Str) : List Str :=
  textualIssuesOf (stripStringLiterals text)

/-- the AST rule applied to the `getText` of one `functioninvocation`
context. -/
def astIssueFor (t : Str) : List Str :=
  let fn := (splitFnInvocation t).1.map Char.toLower
  let args := (splitFnInvocation t).2
  if fn ∈ unsupportedFunctions then [mkFnMsg fn]
  else if fn = str "exists" then
    if !looksLikePattern args then [msgExistsProp] else []
  else if looksLikePattern args then [msgPatternExpr]
  else []

/-- the AST layer of `_find_compatibility_issues`. -/
def astIssues (funcTexts : List Str) : List Str := funcTexts.flatMap astIssueFor

/-- `_find_compatibility_issues`; `funcTexts` is `none` when `tree`/`parser`
are `None` (fallback parsing). -/
def findCompatibilityIssues (text : Str) (funcTexts : Option (List Str)) : List Str :=
  textualIssues text ++
    (match funcTexts with
     | none => []
     | some fts => astIssues fts)

end Ariadne

namespace Ariadne

/-!  `cypher_validator/normalize.py`. -/

/-- the shared loop of `_find_matching_brace` / `_find_matching_paren`
(the two Python functions are identical except for the bracket pair). -/
def matchPairGo (fuel : Nat) (text : Str) (openC closeC : Char) (i : Nat)
    (depth : Int) (inString inBacktick : Bool) : Option Nat :=
  match fuel with
  | 0 => none
  | fuel + 1 =>
    if i < text.length then
      let c := text.getD i nul
      if inString then
        if c = sq && i + 1 < text.length && text.getD (i + 1) nul = sq then
          matchPairGo fuel text openC closeC (i + 2) depth true inBacktick
        else if c = sq then
          matchPairGo fuel text openC closeC (i + 1) depth false inBacktick
        else matchPairGo fuel text openC closeC (i + 1) depth true inBacktick
      else if inBacktick then
        if c = btChar then matchPairGo fuel text openC closeC (i + 1) depth inString false
        else matchPairGo fuel text openC closeC (i + 1) depth inString true
      else if c = sq then matchPairGo fuel text openC closeC (i + 1) depth true inBacktick
      else if c = btChar then matchPairGo fuel text openC closeC (i + 1) depth inString true
      else if c = openC then
        matchPairGo fuel text openC closeC (i + 1) (depth + 1) inString inBacktick
      else if c = closeC then
        if depth - 1 = 0 then some i
        else matchPairGo fuel text openC closeC (i + 1) (depth - 1) inString inBacktick
      else matchPairGo fuel text openC closeC (i + 1) depth inString inBacktick
    else none

/-- `_find_matching_brace`. -/
def findMatchingBrace (text : Str) (start : Nat) : Option Nat :=
  matchPairGo (text.length + 1) text obr cbr start 0 false false

/-- `_find_matching_paren`. -/
def findMatchingParen (text : Str) (start : Nat) : Option Nat :=
  matchPairGo (text.length + 1) text '(' ')' start 0 false false

/-- the loop of `_subquery_has_top_level_return`. -/
def topLevelReturnGo (fuel : Nat) (text : Str) (i : Nat) (dp db dc : Nat)
    (inString inBacktick : Bool) : Bool :=
  match fuel with
  | 0 => false
  | fuel + 1 =>
    if i < text.length then
      let c := text.getD i nul
      if inString then
        if c = sq && i + 1 < text.length && text.getD (i + 1) nul = sq then
          topLevelReturnGo fuel text (i + 2) dp db dc true inBacktick
        else if c = sq then topLevelReturnGo fuel text (i + 1) dp db dc false inBacktick
        else topLevelReturnGo fuel text (i + 1) dp db dc true inBacktick
      else if inBacktick then
        if c = btChar then topLevelReturnGo fuel text (i + 1) dp db dc inString false
        else topLevelReturnGo fuel text (i + 1) dp db dc inString true
      else if c = sq then topLevelReturnGo fuel text (i + 1) dp db dc true inBacktick
      else if c = btChar then topLevelReturnGo fuel text (i + 1) dp db dc inString true
      else
        let dp' := if c = '(' then dp + 1 else if c = ')' then dp - 1 else dp
        let db' := if c = '[' then db + 1 else if c = ']' then db - 1 else db
        let dc' := if c = obr then dc + 1 else if c = cbr then dc - 1 else dc
        if dp' = 0 && db' = 0 && dc' = 0 && upperStartsWithAt text i (str "RETURN") &&
            isWordBoundaryAt text i (i + 6) then true
        else topLevelReturnGo fuel text (i + 1) dp' db' dc' inString inBacktick
    else false

/-- `_subquery_has_top_level_return`. -/
def subqueryHasTopLevelReturn (text : Str) : Bool :=
  topLevelReturnGo (text.length + 1) text 0 0 0 0 false false

/-- the `RETURN 1` completion of an `EXISTS { ... }` body lacking a top-level
`RETURN` (the three statements inside the `if not ...:` block). -/
def appendReturn1 (nb : Str) : Str :=
  let r := pyRstrip nb
  let r' := if !r.isEmpty && !(r.getLast? == some ' ') then r ++ [' '] else r
  r' ++ str "RETURN 1"

/-- the loop of `_normalize_exists_subqueries`; `acc` is the committed
`result` prefix and `last` the start of the not-yet-committed span. -/
def normGo (fuel : Nat) (text : Str) (i last : Nat) (acc : Str)
    (inString inBacktick : Bool) : Str :=
  match fuel with
  | 0 => acc ++ sliceFrom text last
  | fuel + 1 =>
    if i < text.length then
      let c := text.getD i nul
      if inString then
        if c = sq && i + 1 < text.length && text.getD (i + 1) nul = sq then
          normGo fuel text (i + 2) last acc true inBacktick
        else if c = sq then normGo fuel text (i + 1) last acc false inBacktick
        else normGo fuel text (i + 1) last acc true inBacktick
      else if inBacktick then
        if c = btChar then normGo fuel text (i + 1) last acc inString false
        else normGo fuel text (i + 1) last acc inString true
      else if c = sq then normGo fuel text (i + 1) last acc true inBacktick
      else if c = btChar then normGo fuel text (i + 1) last acc inString true
      else if upperStartsWithAt text i (str "EXISTS") && isWordBoundaryAt text i (i + 6) then
        let j := skipWsFrom text (i + 6)
        if j < text.length && text.getD j nul = obr then
          match findMatchingBrace text j with
          | none => acc ++ sliceFrom text last
          | some e =>
            let body := slice text (j + 1) e
            let nb0 := normGo fuel body 0 0 [] false false
            let nb := if !subqueryHasTopLevelReturn nb0 then appendReturn1 nb0 else nb0
            normGo fuel text (e + 1) (e + 1)
              (acc ++ slice text last i ++ slice text i j ++ [obr] ++ nb ++ [cbr])
              inString inBacktick
        else if j < text.length && text.getD j nul = '(' then
          match findMatchingParen text j with
          | none => acc ++ sliceFrom text last
          | some e =>
            let bodyStripped := pyStrip (slice text (j + 1) e)
            if looksLikePattern bodyStripped then
              normGo fuel text (e + 1) (e + 1)
                (acc ++ slice text last i ++ str "EXISTS " ++ [obr] ++ str " MATCH " ++
                  bodyStripped ++ str " RETURN 1 " ++ [cbr])
                inString inBacktick
            else normGo fuel text (i + 1) last acc inString inBacktick
        else normGo fuel text (i + 1) last acc inString inBacktick
      else normGo fuel text (i + 1) last acc inString inBacktick
    else acc ++ sliceFrom text last

/-- `_normalize_exists_subqueries`. -/
def normalizeExistsSubqueries (text : Str) : Str :=
  normGo (text.length + 1) text 0 0 [] false false

end Ariadne

namespace Ariadne

/-!  `cypher_validator/validator.py` with the external ANTLR parser as a
parameter.  `_parse_with_fallback` and its helpers from `normalize.py`. -/

structure AstView where
  funcTexts : List Str
  patternParts : List (Str × Str)
deriving DecidableEq

abbrev ParseFn := Str → Except Str AstView

/-- the loop of `_split_top_level_keyword`. -/
def splitTopGo (fuel : Nat) (text target : Str) (i start : Nat) (dp db dc : Nat)
    (inString inBacktick : Bool) (segs : List Str) : List Str :=
  match fuel with
  | 0 => segs ++ [sliceFrom text start]
  | fuel + 1 =>
    if i < text.length then
      let c := text.getD i nul
      if inString then
        if c = sq && i + 1 < text.length && text.getD (i + 1) nul = sq then
          splitTopGo fuel text target (i + 2) start dp db dc true inBacktick segs
        else if c = sq then
          splitTopGo fuel text target (i + 1) start dp db dc false inBacktick segs
        else splitTopGo fuel text target (i + 1) start dp db dc true inBacktick segs
      else if inBacktick then
        if c = btChar then splitTopGo fuel text target (i + 1) start dp db dc inString false segs
        else splitTopGo fuel text target (i + 1) start dp db dc inString true segs
      else if c = sq then splitTopGo fuel text target (i + 1) start dp db dc true inBacktick segs
      else if c = btChar then splitTopGo fuel text target (i + 1) start dp db dc inString true segs
      else
        let dp' := if c = '(' then dp + 1 else if c = ')' then dp - 1 else dp
        let db' := if c = '[' then db + 1 else if c = ']' then db - 1 else db
        let dc' := if c = obr then dc + 1 else if c = cbr then dc - 1 else dc
        if dp' = 0 && db' = 0 && dc' = 0 && upperStartsWithAt text i target &&
            isWordBoundaryAt text i (i + target.length) then
          splitTopGo fuel text target (i + target.length) (i + target.length)
            dp' db' dc' inString inBacktick (segs ++ [slice text start i])
        else splitTopGo fuel text target (i + 1) start dp' db' dc' inString inBacktick segs
    else segs ++ [sliceFrom text start]

/-- `_split_top_level_keyword`. -/
def splitTopLevelKeyword (text keyword : Str) : List Str :=
  splitTopGo (text.length + 1) text (keyword.map Char.toUpper) 0 0 0 0 0 false false []

/-- the keyword alternatives of `_CLAUSE_START_RE` other than
`OPTIONAL\s+MATCH`. -/
def clauseKws : List Str :=
  [str "MATCH", str "UNWIND", str "CALL", str "CREATE", str "MERGE", str "SET",
   str "DELETE", str "DETACH", str "REMOVE", str "RETURN"]

/-- does `OPTIONAL\s+MATCH` match at position `i`; returns the end position. -/
def optionalMatchAt (text : Str) (i : Nat) : Option Nat :=
  if upperStartsWithAt text i (str "OPTIONAL") then
    let ws := ((text.drop (i + 8)).takeWhile pyIsSpace).length
    if ws ≥ 1 && upperStartsWithAt text (i + 8 + ws) (str "MATCH") then
      some (i + 8 + ws + 5)
    else none
  else none

/-- does `_CLAUSE_START_RE` match at position `i`. -/
def clauseMatchAt (text : Str) (i : Nat) : Bool :=
  bndBefore text i &&
    ((match optionalMatchAt text i with
      | some e => bndAfter text e
      | none => false) ||
     clauseKws.any fun kw =>
       upperStartsWithAt text i kw && bndAfter text (i + kw.length))

/-- `_strip_to_first_clause`. -/
def stripToFirstClause (text : Str) : Str :=
  match (List.range text.length).find? (fun i => clauseMatchAt text i) with
  | none => []
  | some i => pyStrip (text.drop i)

def writeKws : List Str :=
  [str "CREATE", str "MERGE", str "SET", str "DELETE", str "DETACH", str "REMOVE"]

/-- `_ensure_return_clause`. -/
def ensureReturnClause (text : Str) : Str :=
  let trimmed := rstripChar ';' (pyStrip text)
  if searchWordCIIn trimmed (str "RETURN") then trimmed
  else if writeKws.any (fun kw => searchWordCIIn trimmed kw) then trimmed
  else trimmed ++ str " RETURN 1"

/-- `_parse_with_fallback`. -/
def parseWithFallback (parse : ParseFn) (text : Str) : List AstView :=
  (splitTopLevelKeyword text (str "WITH")).foldl
    (fun asts seg =>
      let trimmed := stripToFirstClause seg
      if trimmed.isEmpty then asts
      else
        match parse (ensureReturnClause trimmed) with
        | .ok a => asts ++ [a]
        | .error _ => asts)
    []

inductive ValidationResult where
  | ok : ValidationResult
  | synErr (msg : Str) : ValidationResult
  | compatErr (issues : List Str) : ValidationResult
  | schemaErr (violations : List SchemaViolation) : ValidationResult
deriving DecidableEq

/-- `asts[0].tree if not used_fallback else None` (the list is nonempty at
every call site). -/
def astFuncTexts (asts : List AstView) (usedFallback : Bool) : Option (List Str) :=
  if usedFallback then none
  else
    match asts with
    | a :: _ => some a.funcTexts
    | [] => none

/-- the per-relationship body of the violation loop in
`CypherSchemaValidator.validate`; `enumL` is the process's set enumeration
used by `_resolve_labels`. -/
def violationFor (enumL : List Str → List Str) (s : GraphSchema)
    (varLabels : List (Str × List Str)) (rulePath : Str)
    (ru : RelationshipUse) : Option SchemaViolation :=
  let relTypes := extractRelTypes ru.rel_text
  if relTypes.isEmpty then none
  else
    let leftLabels := resolveLabels enumL ru.left_labels ru.left_var varLabels
    let rightLabels := resolveLabels enumL ru.right_labels ru.right_var varLabels
    if leftLabels.isEmpty || rightLabels.isEmpty then none
    else
      let direction := directionFromMatch ru.left_dir ru.right_dir
      if isAllowed s relTypes leftLabels rightLabels direction then none
      else
        some { rel_type := List.intercalate (str "|") relTypes,
               left_labels := leftLabels,
               right_labels := rightLabels,
               direction := direction,
               snippet := formatSnippet ru,
               rule_path := rulePath,
               allowed_pairs := allowedPairs s relTypes }

/-- the violation-collection stage of `validate` over the extracted
`(rule_path, pattern_text)` pairs. -/
def collectViolations (enumL : List Str → List Str) (s : GraphSchema)
    (patternParts : List (Str × Str)) : List SchemaViolation :=
  let varLabels := collectVariableLabels (patternParts.map (fun pp => pp.2))
  (patternParts.map fun pp =>
    (iterRelationships pp.2).filterMap (violationFor enumL s varLabels pp.1)).flatten

/-- the stages of `validate` common to all successful parses: compatibility
check, pattern extraction, label resolution and schema checks. -/
def runChecks (enumL : List Str → List Str) (s : GraphSchema) (cypher : Str)
    (asts : List AstView) (usedFallback : Bool) : ValidationResult :=
  let issues := findCompatibilityIssues cypher (astFuncTexts asts usedFallback)
  if !issues.isEmpty then .compatErr issues
  else
    let patternParts := (asts.map AstView.patternParts).flatten
    let violations := collectViolations enumL s patternParts
    if !violations.isEmpty then .schemaErr violations else .ok

/-- `CypherSchemaValidator.validate`; `parse` is the external ANTLR parser
and `enumL` the process's `tuple(frozenset)` enumeration order. -/
def validate (parse : ParseFn) (enumL : List Str → List Str) (s : GraphSchema)
    (cypher : Str) : ValidationResult :=
  match parse cypher with
  | .ok ast => runChecks enumL s cypher [ast] false
  | .error msg =>
    let normalized := normalizeExistsSubqueries cypher
    match parse normalized with
    | .ok ast => runChecks enumL s cypher [ast] false
    | .error _ =>
      let asts := parseWithFallback parse normalized
      if asts.isEmpty then .synErr msg
      else runChecks enumL s cypher asts true

/-- the violations carried by a result (empty unless it is a schema error). -/
def resultViolations : ValidationResult → List SchemaViolation
  | .schemaErr vs => vs
  | _ => []

/-- whether an `Except` is an error. -/
def exceptIsError : Except Str AstView → Bool
  | .error _ => true
  | .ok _ => false

end Ariadne

namespace Ariadne

/-!  Set-level comparison of schema representations.  Two `GraphSchema`
values with the same key set and pairwise membership-equal pair lists model
the same Python schema object as enumerated by two different processes. -/

def pairSetSub (l1 l2 : List (Str × Str)) : Bool :=
  l1.all fun p => decide (p ∈ l2)

def pairSetEqB (l1 l2 : List (Str × Str)) : Bool :=
  pairSetSub l1 l2 && pairSetSub l2 l1

def schemaKeys (s : GraphSchema) : List Str := s.relationships.map Prod.fst

def schemaEquivB (s1 s2 : GraphSchema) : Bool :=
  (schemaKeys s1 ++ schemaKeys s2).all fun r =>
    pairSetEqB (s1.pairsFor r) (s2.pairsFor r)

/-- `s` is a faithful in-memory representation of `from_edges(edges)`: the
same keys, and for every key a duplicate-free enumeration of the same pair
set.  Python does not fix which enumeration a process observes. -/
def validRepOf (edges : List (Str × Str × Str)) (s : GraphSchema) : Bool :=
  schemaEquivB (GraphSchema.fromEdges edges) s &&
    (schemaKeys s).all (fun r => decide (r ∈ schemaKeys (GraphSchema.fromEdges edges))) &&
    (schemaKeys (GraphSchema.fromEdges edges)).all (fun r => decide (r ∈ schemaKeys s)) &&
    decide (schemaKeys s).Nodup &&
    s.relationships.all fun e => decide e.2.Nodup

/-- Definition following the SPEC's words for C5 (refinement comparison):
the pairs declared for the given edge types, ordered by first-declared
appearance in the construction input, deduplicated. -/
def specDeclaredPairs (edges : List (Str × Str × Str)) (relTypes : List Str) :
    List (Str × Str) :=
  (edges.filter fun e => decide (e.2.1 ∈ relTypes)).foldl
    (fun acc e => if (e.1, e.2.2) ∈ acc then acc else acc ++ [(e.1, e.2.2)]) []

/-!  Basic lemmas about lookups and `_allowed_pairs`. -/

lemma lookupPairs_eq_nil_of_forall_ne {m : List (Str × List (Str × Str))} {rel : Str}
    (h : ∀ e ∈ m, e.1 ≠ rel) : lookupPairs m rel = [] := by
  induction m with
  | nil => rfl
  | cons e t ih =>
    obtain ⟨r, ps⟩ := e
    have hr : r ≠ rel := h (r, ps) (List.mem_cons_self _ _)
    simp only [lookupPairs, if_neg hr]
    exact ih fun e he => h e (List.mem_cons_of_mem _ he)

lemma mem_dedupAppend (ps : List (Str × Str)) (acc : List (Str × Str)) (p : Str × Str) :
    p ∈ dedupAppend acc ps ↔ p ∈ acc ∨ p ∈ ps := by
  induction ps generalizing acc with
  | nil => simp [dedupAppend]
  | cons q t ih =>
    simp only [dedupAppend, List.foldl_cons] at ih ⊢
    rw [ih]
    by_cases hq : q ∈ acc
    · simp only [if_pos hq, List.mem_cons]
      constructor
      · rintro (h | h)
        · exact Or.inl h
        · exact Or.inr (Or.inr h)
      · rintro (h | h | h)
        · exact Or.inl h
        · exact Or.inl (h ▸ hq)
        · exact Or.inr h
    · simp only [if_neg hq, List.mem_append, List.mem_singleton, List.mem_cons]
      tauto

lemma nodup_dedupAppend (ps : List (Str × Str)) (acc : List (Str × Str))
    (h : acc.Nodup) : (dedupAppend acc ps).Nodup := by
  induction ps generalizing acc with
  | nil => exact h
  | cons q t ih =>
    simp only [dedupAppend, List.foldl_cons] at ih ⊢
    by_cases hq : q ∈ acc
    · rw [if_pos hq]; exact ih acc h
    · rw [if_neg hq]
      refine ih _ ?_
      simp [List.nodup_append, h, hq]

lemma mem_allowedPairs_aux (s : GraphSchema) (T : List Str)
    (acc : List (Str × Str)) (p : Str × Str) :
    p ∈ T.foldl (fun a t => dedupAppend a (s.pairsFor t)) acc ↔
      p ∈ acc ∨ ∃ t ∈ T, p ∈ s.pairsFor t := by
  induction T generalizing acc with
  | nil => simp
  | cons t ts ih =>
    simp only [List.foldl_cons]
    rw [ih, mem_dedupAppend]
    simp only [List.mem_cons]
    constructor
    · rintro ((h | h) | ⟨u, hu, hp⟩)
      · exact Or.inl h
      · exact Or.inr ⟨t, Or.inl rfl, h⟩
      · exact Or.inr ⟨u, Or.inr hu, hp⟩
    · rintro (h | ⟨u, (rfl | hu), hp⟩)
      · exact Or.inl (Or.inl h)
      · exact Or.inl (Or.inr hp)
      · exact Or.inr ⟨u, hu, hp⟩

lemma mem_allowedPairs (s : GraphSchema) (T : List Str) (p : Str × Str) :
    p ∈ allowedPairs s T ↔ ∃ t ∈ T, p ∈ s.pairsFor t := by
  rw [allowedPairs, mem_allowedPairs_aux]
  simp

lemma nodup_allowedPairs_aux (s : GraphSchema) (T : List Str)
    (acc : List (Str × Str)) (h : acc.Nodup) :
    (T.foldl (fun a t => dedupAppend a (s.pairsFor t)) acc).Nodup := by
  induction T generalizing acc with
  | nil => exact h
  | cons t ts ih => exact ih _ (nodup_dedupAppend _ _ h)

lemma nodup_allowedPairs (s : GraphSchema) (T : List Str) :
    (allowedPairs s T).Nodup :=
  nodup_allowedPairs_aux s T [] List.nodup_nil

/-!  Claim C2. -/

/-- C2: `allows(T, A, B)` is a pure positional membership test: it is true
iff the ordered pair `(A, B)` is in the schema's pair set for `T`; an edge
type absent from the schema admits nothing; and a schema declaring only the
edge `A -> B` (with `A ≠ B`) does not admit `B -> A`. -/
theorem c2_allows_positional :
    (∀ (s : GraphSchema) (T A B : Str),
        s.allows T A B = true ↔ (A, B) ∈ s.pairsFor T) ∧
    (∀ (s : GraphSchema) (T A B : Str),
        (∀ e ∈ s.relationships, e.1 ≠ T) → s.allows T A B = false) ∧
    (∀ T A B : Str, A ≠ B →
        (GraphSchema.fromEdges [(A, T, B)]).allows T B A = false) := by
  refine ⟨fun s T A B => ?_, fun s T A B h => ?_, fun T A B hne => ?_⟩
  · simp [GraphSchema.allows]
  · simp only [GraphSchema.allows, GraphSchema.pairsFor,
      lookupPairs_eq_nil_of_forall_ne h]
    simp
  · have hpairs : (GraphSchema.fromEdges [(A, T, B)]).pairsFor T = [(A, B)] := by
      simp [GraphSchema.pairsFor, lookupPairs, GraphSchema.fromEdges, insertEdge]
    simp only [GraphSchema.allows, hpairs, List.mem_singleton, Prod.mk.injEq,
      decide_eq_false_iff_not]
    rintro ⟨h1, h2⟩
    exact hne h2

/-- C2 witness: a concrete schema declaring only `A -> B` via `T` rejects
`B -> A`. -/
theorem c2_witness :
    (GraphSchema.fromEdges [(str "A", str "T", str "B")]).allows
      (str "T") (str "B") (str "A") = false :=
  c2_allows_positional.2.2 (str "A") (str "T") (str "B") (by decide)

/-!  Claim C3. -/

lemma isAllowed_iff (s : GraphSchema) (T L R : List Str) (d : Str) :
    isAllowed s T L R d = true ↔
      ∃ t ∈ T, ∃ l ∈ L, ∃ r ∈ R,
        (s.allows t l r = true ∧ (d = dirLtr ∨ d = dirBoth ∨ d = dirUnd)) ∨
        (s.allows t r l = true ∧ (d = dirRtl ∨ d = dirBoth ∨ d = dirUnd)) := by
  simp only [isAllowed, List.any_eq_true, Bool.or_eq_true, Bool.and_eq_true,
    beq_iff_eq, or_assoc]
  constructor
  · rintro ⟨t, ht, ⟨hd, l, hl, r, hr, ha⟩ | ⟨hd, l, hl, r, hr, ha⟩⟩
    · exact ⟨t, ht, l, hl, r, hr, Or.inl ⟨ha, hd⟩⟩
    · exact ⟨t, ht, l, hl, r, hr, Or.inr ⟨ha, hd⟩⟩
  · rintro ⟨t, ht, l, hl, r, hr, ⟨ha, hd⟩ | ⟨ha, hd⟩⟩
    · exact ⟨t, ht, Or.inl ⟨hd, l, hl, r, hr, ha⟩⟩
    · exact ⟨t, ht, Or.inr ⟨hd, l, hl, r, hr, ha⟩⟩

/-- C3: the direction of an extracted relationship follows the table
`(<-,->) → both`, `(<-,-) → right_to_left`, `(-,->) → left_to_right`,
`(-,-) → undirected`, and the rule engine admits iff some edge-type
alternative and label pair is allowed in an orientation compatible with the
direction; in particular `both` and `undirected` admit iff either
orientation is allowed. -/
theorem c3_direction_table_and_admission (s : GraphSchema) (T L R : List Str) :
    (directionFromMatch (str "<-") (str "->") = dirBoth ∧
     directionFromMatch (str "<-") (str "-") = dirRtl ∧
     directionFromMatch (str "-") (str "->") = dirLtr ∧
     directionFromMatch (str "-") (str "-") = dirUnd) ∧
    ∀ leftDir rightDir : Str,
      isAllowed s T L R (directionFromMatch leftDir rightDir) = true ↔
        ∃ t ∈ T, ∃ l ∈ L, ∃ r ∈ R,
          (s.allows t l r = true ∧
            (directionFromMatch leftDir rightDir = dirLtr ∨
             directionFromMatch leftDir rightDir = dirBoth ∨
             directionFromMatch leftDir rightDir = dirUnd)) ∨
          (s.allows t r l = true ∧
            (directionFromMatch leftDir rightDir = dirRtl ∨
             directionFromMatch leftDir rightDir = dirBoth ∨
             directionFromMatch leftDir rightDir = dirUnd)) := by
  exact ⟨by refine ⟨by decide, by decide, by decide, by decide⟩,
    fun leftDir rightDir => isAllowed_iff s T L R (directionFromMatch leftDir rightDir)⟩

/-!  Claim C5 (amended): content and deduplication of `_allowed_pairs`. -/

/-- C5 (amended): for every schema representation and list of edge-type
alternatives, `_allowed_pairs` is duplicate-free and contains exactly the
union of the schema pair sets of the alternatives; its order is the order of
the schema's set enumeration (grouped by alternative), not the declaration
order of the construction input. -/
theorem c5_allowed_pairs_content :
    ∀ (s : GraphSchema) (T : List Str),
      (allowedPairs s T).Nodup ∧
        ∀ p : Str × Str, p ∈ allowedPairs s T ↔ ∃ t ∈ T, p ∈ s.pairsFor t :=
  fun s T => ⟨nodup_allowedPairs s T, fun p => mem_allowedPairs s T p⟩

/-!  Claim C6: the normalizer is not idempotent.  A pattern-form
`EXISTS(...)` whose body itself contains a pattern-form `EXISTS(...)` is
rewritten verbatim into the new subquery body, which the second application
rewrites again. -/

def c6bad : Str := str "EXISTS(EXISTS((a)->(b)))"

/-- scenario 3 of the spec: `EXISTS { ... }` without a terminal `RETURN`. -/
def c6spec3 : Str :=
  str "MATCH (s:Service) WHERE NOT EXISTS \x7b MATCH (s)-[:Manages]->(:EndpointSlice) \x7d RETURN s"

/-- scenario 4 of the spec: pattern-form `EXISTS((...))`. -/
def c6spec4 : Str :=
  str "MATCH (s:Service) WHERE NOT EXISTS((s)-[:Manages]->(:EndpointSlice)) RETURN s"

/-- C6 counterexample: on `EXISTS(EXISTS((a)->(b)))` a second application of
the EXISTS-rewriting pass changes the text again, so
`normalize (normalize x) ≠ normalize x`. -/
theorem c6_counterexample :
    normalizeExistsSubqueries (normalizeExistsSubqueries c6bad) ≠
      normalizeExistsSubqueries c6bad := by decide

/-- C6 (amended): the normalizer is idempotent on inputs it leaves unchanged
(already-normal texts are fixed points) and on the spec's own EXISTS
scenarios, but not on every input. -/
theorem c6_idempotent_on_fixed_points_and_scenarios :
    (∀ x : Str, normalizeExistsSubqueries x = x →
        normalizeExistsSubqueries (normalizeExistsSubqueries x) =
          normalizeExistsSubqueries x) ∧
    normalizeExistsSubqueries (normalizeExistsSubqueries c6spec3) =
      normalizeExistsSubqueries c6spec3 ∧
    normalizeExistsSubqueries (normalizeExistsSubqueries c6spec4) =
      normalizeExistsSubqueries c6spec4 := by
  refine ⟨fun x h => by rw [h, h], by decide, by decide⟩

/-- C6 witness: a text without EXISTS constructs is a fixed point, hence
idempotent. -/
theorem c6_witness :
    normalizeExistsSubqueries (normalizeExistsSubqueries (str "MATCH (a) RETURN a")) =
      normalizeExistsSubqueries (str "MATCH (a) RETURN a") :=
  c6_idempotent_on_fixed_points_and_scenarios.1 (str "MATCH (a) RETURN a") (by decide)

end Ariadne

namespace Ariadne

/-!  Dispatch lemmas for `validate` and `runChecks`. -/

instance : DecidableEq (Except Str AstView) := fun a b =>
  match a, b with
  | .ok x, .ok y => decidable_of_iff (x = y) (by simp)
  | .error x, .error y => decidable_of_iff (x = y) (by simp)
  | .ok _, .error _ => isFalse (by simp)
  | .error _, .ok _ => isFalse (by simp)

lemma runChecks_ne_synErr (enumL : List Str → List Str) (s : GraphSchema)
    (cypher : Str) (asts : List AstView) (fb : Bool) (m : Str) :
    runChecks enumL s cypher asts fb ≠ .synErr m := by
  intro hcon
  simp only [runChecks] at hcon
  split at hcon
  · exact ValidationResult.noConfusion hcon
  · split at hcon
    · exact ValidationResult.noConfusion hcon
    · exact ValidationResult.noConfusion hcon

lemma validate_eq_runChecks_of_ok {parse : ParseFn} {enumL : List Str → List Str}
    {s : GraphSchema} {text : Str} {a : AstView} (h : parse text = .ok a) :
    validate parse enumL s text = runChecks enumL s text [a] false := by
  unfold validate
  simp only [h]

lemma validate_eq_of_norm_ok {parse : ParseFn} {enumL : List Str → List Str}
    {s : GraphSchema} {text m : Str} {a : AstView} (h1 : parse text = .error m)
    (h2 : parse (normalizeExistsSubqueries text) = .ok a) :
    validate parse enumL s text = runChecks enumL s text [a] false := by
  unfold validate
  simp only [h1, h2]

lemma validate_eq_of_fallback {parse : ParseFn} {enumL : List Str → List Str}
    {s : GraphSchema} {text m m2 : Str}
    (h1 : parse text = .error m)
    (h2 : parse (normalizeExistsSubqueries text) = .error m2) :
    validate parse enumL s text =
      (if (parseWithFallback parse (normalizeExistsSubqueries text)).isEmpty
       then .synErr m
       else runChecks enumL s text
         (parseWithFallback parse (normalizeExistsSubqueries text)) true) := by
  unfold validate
  simp only [h1, h2]

/-- a closed form of `runChecks` in the fallback case: the AST layer is
absent and the compatibility issues are exactly the textual ones. -/
lemma runChecks_fallback (enumL : List Str → List Str) (s : GraphSchema)
    (text : Str) (asts : List AstView) :
    runChecks enumL s text asts true =
      (if !(textualIssues text).isEmpty then .compatErr (textualIssues text)
       else if !(collectViolations enumL s ((asts.map AstView.patternParts).flatten)).isEmpty
         then .schemaErr (collectViolations enumL s ((asts.map AstView.patternParts).flatten))
         else .ok) := by
  unfold runChecks
  simp [astFuncTexts, findCompatibilityIssues]

/-!  Claim C7. -/

/-- C7: `validate` yields a syntax error iff the raw parse fails, the parse
of the normalized text fails, and the segmented fallback produces zero parse
trees; and the carried message is the raw parse's message. -/
theorem c7_syntax_error_iff (parse : ParseFn) (enumL : List Str → List Str)
    (s : GraphSchema) (text : Str) :
    ((∃ m, validate parse enumL s text = .synErr m) ↔
      (exceptIsError (parse text) = true ∧
       exceptIsError (parse (normalizeExistsSubqueries text)) = true ∧
       parseWithFallback parse (normalizeExistsSubqueries text) = [])) ∧
    ∀ m, validate parse enumL s text = .synErr m → parse text = .error m := by
  constructor
  · constructor
    · rintro ⟨m, hm⟩
      cases hp : parse text with
      | ok a =>
        rw [validate_eq_runChecks_of_ok hp] at hm
        exact absurd hm (runChecks_ne_synErr _ _ _ _ _ _)
      | error m0 =>
        cases hn : parse (normalizeExistsSubqueries text) with
        | ok a =>
          rw [validate_eq_of_norm_ok hp hn] at hm
          exact absurd hm (runChecks_ne_synErr _ _ _ _ _ _)
        | error m2 =>
          rw [validate_eq_of_fallback hp hn] at hm
          by_cases hf : (parseWithFallback parse (normalizeExistsSubqueries text)).isEmpty = true
          · exact ⟨rfl, rfl, List.isEmpty_iff.mp hf⟩
          · rw [if_neg hf] at hm
            exact absurd hm (runChecks_ne_synErr _ _ _ _ _ _)
    · rintro ⟨h1, h2, h3⟩
      cases hp : parse text with
      | ok a => rw [hp] at h1; exact absurd h1 (by simp [exceptIsError])
      | error m0 =>
        cases hn : parse (normalizeExistsSubqueries text) with
        | ok a => rw [hn] at h2; exact absurd h2 (by simp [exceptIsError])
        | error m2 =>
          refine ⟨m0, ?_⟩
          rw [validate_eq_of_fallback hp hn, if_pos (by rw [h3]; rfl)]
  · intro m hm
    cases hp : parse text with
    | ok a =>
      rw [validate_eq_runChecks_of_ok hp] at hm
      exact absurd hm (runChecks_ne_synErr _ _ _ _ _ _)
    | error m0 =>
      cases hn : parse (normalizeExistsSubqueries text) with
      | ok a =>
        rw [validate_eq_of_norm_ok hp hn] at hm
        exact absurd hm (runChecks_ne_synErr _ _ _ _ _ _)
      | error m2 =>
        rw [validate_eq_of_fallback hp hn] at hm
        by_cases hf : (parseWithFallback parse (normalizeExistsSubqueries text)).isEmpty = true
        · rw [if_pos hf] at hm
          injection hm with hmm
          rw [hmm]
        · rw [if_neg hf] at hm
          exact absurd hm (runChecks_ne_synErr _ _ _ _ _ _)

def emptySchema : GraphSchema := ⟨[]⟩

/-- an oracle that fails on every input. -/
def pFail : ParseFn := fun _ => Except.error (str "boom")

/-- C7 witness: with an oracle that rejects every parse attempt, `validate`
reports a syntax error. -/
theorem c7_witness :
    ∃ m, validate pFail idE emptySchema (str "SELECT 1") = ValidationResult.synErr m :=
  (c7_syntax_error_iff pFail idE emptySchema (str "SELECT 1")).1.mpr
    ⟨by decide, by decide, by decide⟩

/-!  Claim C8. -/

/-- C8: when the segmented fallback is used, the AST-level compatibility
rules are skipped while the textual rules still run on the original text:
the only compatibility error `validate` can produce is exactly the textual
issue list, and it is produced whenever that list is nonempty. -/
theorem c8_fallback_textual_only (parse : ParseFn) (enumL : List Str → List Str)
    (s : GraphSchema) (text m : Str)
    (h1 : parse text = .error m)
    (h2 : exceptIsError (parse (normalizeExistsSubqueries text)) = true)
    (h3 : ¬(parseWithFallback parse (normalizeExistsSubqueries text)).isEmpty = true) :
    (textualIssues text ≠ [] →
        validate parse enumL s text = .compatErr (textualIssues text)) ∧
    ∀ issues, validate parse enumL s text = .compatErr issues →
      issues = textualIssues text := by
  obtain ⟨m2, hn⟩ : ∃ m2, parse (normalizeExistsSubqueries text) = .error m2 := by
    cases hq : parse (normalizeExistsSubqueries text) with
    | ok a => rw [hq] at h2; exact absurd h2 (by simp [exceptIsError])
    | error m2 => exact ⟨m2, rfl⟩
  have hv : validate parse enumL s text =
      runChecks enumL s text (parseWithFallback parse (normalizeExistsSubqueries text)) true := by
    rw [validate_eq_of_fallback h1 hn, if_neg h3]
  constructor
  · intro hne
    rw [hv, runChecks_fallback, if_pos]
    simp [List.isEmpty_iff, hne]
  · intro issues hissue
    rw [hv, runChecks_fallback] at hissue
    by_cases ht : (textualIssues text).isEmpty = true
    · rw [if_neg (by simp [ht])] at hissue
      split at hissue
      · exact ValidationResult.noConfusion hissue
      · exact ValidationResult.noConfusion hissue
    · rw [if_pos (by simp [Bool.not_eq_true] at ht ⊢; exact ht)] at hissue
      injection hissue with hi
      exact hi.symm

def c8text : Str := str "MATCH (a:Pod) SHORTEST"

/-- the fallback candidate built from `c8text`: its single `WITH` segment,
trimmed to the first clause, with `RETURN 1` appended. -/
def c8candidate : Str := str "MATCH (a:Pod) SHORTEST RETURN 1"

/-- an oracle that parses only the fallback candidate of `c8text`. -/
def c8parse : ParseFn := fun t =>
  if t = c8candidate then Except.ok ⟨[], []⟩ else Except.error (str "x")

/-- C8 witness: a query that fails to parse whole but has a parsable
segment is still rejected by the textual SHORTEST rule. -/
theorem c8_witness :
    validate c8parse idE emptySchema c8text = ValidationResult.compatErr (textualIssues c8text) :=
  (c8_fallback_textual_only c8parse idE emptySchema c8text (str "x")
    (by decide) (by decide) (by decide)).1 (by decide)

end Ariadne

namespace Ariadne

/-!  Structure of the violation stage: lemmas about `violationFor`,
`collectViolations` and the violations carried by a `validate` result. -/

lemma violationFor_eq_none_of_empty_types {enumL : List Str → List Str}
    {s : GraphSchema} {vl : List (Str × List Str)} {rp : Str}
    {ru : RelationshipUse} (h : extractRelTypes ru.rel_text = []) :
    violationFor enumL s vl rp ru = none := by
  simp [violationFor, h]

lemma violationFor_eq_none_of_empty_side {enumL : List Str → List Str}
    {s : GraphSchema} {vl : List (Str × List Str)} {rp : Str}
    {ru : RelationshipUse}
    (h : resolveLabels enumL ru.left_labels ru.left_var vl = [] ∨
         resolveLabels enumL ru.right_labels ru.right_var vl = []) :
    violationFor enumL s vl rp ru = none := by
  rcases h with h | h <;> simp [violationFor, h]

lemma violationFor_eq_some {enumL : List Str → List Str} {s : GraphSchema}
    {vl : List (Str × List Str)} {rp : Str} {ru : RelationshipUse}
    {v : SchemaViolation} (h : violationFor enumL s vl rp ru = some v) :
    extractRelTypes ru.rel_text ≠ [] ∧
    v.left_labels = resolveLabels enumL ru.left_labels ru.left_var vl ∧
    v.right_labels = resolveLabels enumL ru.right_labels ru.right_var vl ∧
    v.left_labels ≠ [] ∧ v.right_labels ≠ [] := by
  simp only [violationFor] at h
  split at h
  · exact absurd h (by simp)
  · split at h
    · exact absurd h (by simp)
    · split at h
      · exact absurd h (by simp)
      · injection h with h
        subst h
        rename_i h1 h2 h3
        simp only [List.isEmpty_eq_true] at h1
        simp only [Bool.or_eq_true, List.isEmpty_eq_true] at h2
        push_neg at h2
        exact ⟨h1, rfl, rfl, h2.1, h2.2⟩

lemma mem_collectViolations {enumL : List Str → List Str} {s : GraphSchema}
    {pps : List (Str × Str)} {v : SchemaViolation}
    (h : v ∈ collectViolations enumL s pps) :
    ∃ rp ru, violationFor enumL s
      (collectVariableLabels (pps.map (fun pp => pp.2))) rp ru = some v := by
  simp only [collectViolations, List.mem_flatten, List.mem_map] at h
  obtain ⟨l, ⟨pp, hpp, rfl⟩, hv⟩ := h
  rw [List.mem_filterMap] at hv
  obtain ⟨ru, _, hru⟩ := hv
  exact ⟨pp.1, ru, hru⟩

lemma mem_resultViolations_runChecks {enumL : List Str → List Str}
    {s : GraphSchema} {text : Str} {asts : List AstView} {fb : Bool}
    {v : SchemaViolation}
    (h : v ∈ resultViolations (runChecks enumL s text asts fb)) :
    v ∈ collectViolations enumL s ((asts.map AstView.patternParts).flatten) := by
  simp only [runChecks] at h
  split at h
  · simp [resultViolations] at h
  · split at h
    · simpa [resultViolations] using h
    · simp [resultViolations] at h

lemma mem_resultViolations_validate {parse : ParseFn}
    {enumL : List Str → List Str} {s : GraphSchema} {text : Str}
    {v : SchemaViolation}
    (h : v ∈ resultViolations (validate parse enumL s text)) :
    ∃ pps, v ∈ collectViolations enumL s pps := by
  cases hp : parse text with
  | ok a =>
    rw [validate_eq_runChecks_of_ok hp] at h
    exact ⟨_, mem_resultViolations_runChecks h⟩
  | error m0 =>
    cases hn : parse (normalizeExistsSubqueries text) with
    | ok a =>
      rw [validate_eq_of_norm_ok hp hn] at h
      exact ⟨_, mem_resultViolations_runChecks h⟩
    | error m2 =>
      rw [validate_eq_of_fallback hp hn] at h
      by_cases hf : (parseWithFallback parse (normalizeExistsSubqueries text)).isEmpty = true
      · rw [if_pos hf] at h
        simp [resultViolations] at h
      · rw [if_neg hf] at h
        exact ⟨_, mem_resultViolations_runChecks h⟩

/-!  Claim C9. -/

/-- C9: a relationship occurrence whose left or right side resolves to an
empty label set is skipped by the violation loop, and consequently every
violation recorded by `validate` has nonempty left and right label lists
(under every process's set enumeration). -/
theorem c9_unlabeled_sides_skipped :
    (∀ (enumL : List Str → List Str) (s : GraphSchema)
        (varLabels : List (Str × List Str)) (rulePath : Str)
        (ru : RelationshipUse),
        resolveLabels enumL ru.left_labels ru.left_var varLabels = [] ∨
        resolveLabels enumL ru.right_labels ru.right_var varLabels = [] →
          violationFor enumL s varLabels rulePath ru = none) ∧
    ∀ (parse : ParseFn) (enumL : List Str → List Str) (s : GraphSchema)
        (text : Str) (v : SchemaViolation),
      v ∈ resultViolations (validate parse enumL s text) →
        v.left_labels ≠ [] ∧ v.right_labels ≠ [] := by
  constructor
  · exact fun enumL s vl rp ru h => violationFor_eq_none_of_empty_side h
  · intro parse enumL s text v h
    obtain ⟨pps, hc⟩ := mem_resultViolations_validate h
    obtain ⟨rp, ru, hru⟩ := mem_collectViolations hc
    obtain ⟨-, -, -, h4, h5⟩ := violationFor_eq_some hru
    exact ⟨h4, h5⟩

/-- a relationship use with an unlabeled, unnamed right node. -/
def c9rel : RelationshipUse :=
  { left_node := str "a:A", right_node := str "b", rel_text := str ":T",
    left_dir := str "-", right_dir := str "->", left_var := some (str "a"),
    right_var := some (str "b"), left_labels := [str "A"], right_labels := [] }

/-- C9 witness: a concrete relationship whose right side has no resolvable
labels yields no violation. -/
theorem c9_witness : violationFor idE emptySchema [] (str "p") c9rel = none :=
  c9_unlabeled_sides_skipped.1 idE emptySchema [] (str "p") c9rel (Or.inr (by decide))

/-!  Claim C10. -/

/-- Definition following the claim's words (refinement comparison): the
bracket text declares no edge type when no colon occurs before the first
brace or star. -/
def noColonBeforeBraceStar (relText : Str) : Bool :=
  !((relText.takeWhile fun c => c != obr && c != '*').contains ':')

def c10schema : GraphSchema := ⟨[]⟩
def c10query : Str := str "MATCH (a:A)-[r*2:x]->(b:B) RETURN a"
def c10pat : Str := str "(a:A)-[r*2:x]->(b:B)"

/-- an oracle modelling the parse of `c10query`. -/
def c10parse : ParseFn := fun t =>
  if t = c10query then
    Except.ok ⟨[], [(str "cypher/match/patternpart", c10pat)]⟩
  else Except.error (str "parse failed")

/-- C10 counterexample: the bracket text `r*2:x` has no colon before the
star, yet `_extract_rel_types` extracts the type `x` (the colon after the
star still introduces a type) and `validate` records a violation for that
relationship instead of skipping it. -/
theorem c10_counterexample :
    noColonBeforeBraceStar (str "r*2:x") = true ∧
    extractRelTypes (str "r*2:x") = [str "x"] ∧
    (resultViolations (validate c10parse idE c10schema c10query)).map
      SchemaViolation.rel_type = [str "x"] := by
  refine ⟨by decide, by decide, by decide⟩

/-- C10 (amended): a relationship whose bracket text yields an empty
extracted type list (`_extract_rel_types` returns `[]`, as for `[r]`, `[]`
and `[*1..2]`) is skipped before label resolution; but a colon may still
introduce a type after a star, so "no colon before any brace or star" does
not characterize the skip. -/
theorem c10_empty_type_list_skipped :
    (∀ (enumL : List Str → List Str) (s : GraphSchema)
        (varLabels : List (Str × List Str)) (rulePath : Str)
        (ru : RelationshipUse),
        extractRelTypes ru.rel_text = [] →
          violationFor enumL s varLabels rulePath ru = none) ∧
    extractRelTypes (str "r") = [] ∧
    extractRelTypes [] = [] ∧
    extractRelTypes (str "*1..2") = [] := by
  exact ⟨fun enumL s vl rp ru h => violationFor_eq_none_of_empty_types h,
    by decide, by decide, by decide⟩

/-- a relationship use whose bracket text declares no type. -/
def c10rel : RelationshipUse :=
  { left_node := str "a:A", right_node := str "b:B", rel_text := str "r",
    left_dir := str "-", right_dir := str "->", left_var := some (str "a"),
    right_var := some (str "b"), left_labels := [str "A"],
    right_labels := [str "B"] }

/-- C10 witness: a concrete typeless relationship is skipped. -/
theorem c10_witness : violationFor idE emptySchema [] (str "p") c10rel = none :=
  c10_empty_type_list_skipped.1 idE emptySchema [] (str "p") c10rel (by decide)

end Ariadne

namespace Ariadne

/-!  Claim C1.  `_find_compatibility_issues` contains no rule about inline
property maps; every issue string it can emit comes from a fixed finite
message set, none of which mentions them. -/

def fixedTextualMsgs : List Str :=
  [msgNotLabel, msgShortest, msgCount, msgCollect, msgIsType, msgOctal,
   msgNanInf, msgFixedLen, msgCaseWhen]

def possibleCompatMsgs : List Str :=
  fixedTextualMsgs ++ unsupportedFunctions.map mkFnMsg ++
    [msgExistsProp, msgPatternExpr]

lemma mem_textualIssuesOf {st m : Str} (h : m ∈ textualIssuesOf st) :
    m ∈ fixedTextualMsgs := by
  simp only [textualIssuesOf, List.mem_append] at h
  rcases h with ((((((((h | h) | h) | h) | h) | h) | h) | h) | h) <;>
    (split at h <;> simp_all [fixedTextualMsgs])

lemma mem_astIssueFor {t m : Str} (h : m ∈ astIssueFor t) :
    m ∈ unsupportedFunctions.map mkFnMsg ++ [msgExistsProp, msgPatternExpr] := by
  simp only [astIssueFor] at h
  split at h
  · rename_i hmem
    simp only [List.mem_singleton] at h
    subst h
    exact List.mem_append_left _ (List.mem_map_of_mem _ hmem)
  · split at h
    · split at h
      · simp only [List.mem_singleton] at h
        subst h
        simp
      · simp at h
    · split at h
      · simp only [List.mem_singleton] at h
        subst h
        simp
      · simp at h

lemma mem_findCompatibilityIssues {text : Str} {fts : Option (List Str)}
    {m : Str} (h : m ∈ findCompatibilityIssues text fts) :
    m ∈ possibleCompatMsgs := by
  simp only [findCompatibilityIssues, List.mem_append] at h
  rcases h with h | h
  · rw [textualIssues] at h
    exact List.mem_append_left _ (List.mem_append_left _ (mem_textualIssuesOf h))
  · cases fts with
    | none => simp at h
    | some fts =>
      simp only [astIssues, List.mem_flatMap] at h
      obtain ⟨t, _, ht⟩ := h
      have := mem_astIssueFor ht
      simp only [possibleCompatMsgs, List.append_assoc, List.mem_append]
      rw [List.mem_append] at this
      exact Or.inr this

lemma possibleMsgs_no_inline :
    possibleCompatMsgs.all (fun m2 => !substrIn (str "nline propert") m2) = true := by
  decide

/-- C1 (amended): no compatibility rule of the validator concerns inline
property maps: every issue string `_find_compatibility_issues` can emit
(for any query text and any parse tree) avoids the phrase
`inline property map(s)` entirely, so a Compatibility error mentioning
inline property maps is impossible. -/
theorem c1_no_inline_property_issue :
    ∀ (text : Str) (fts : Option (List Str)) (m : Str),
      m ∈ findCompatibilityIssues text fts →
        substrIn (str "nline propert") m = false := by
  intro text fts m h
  have hmem := mem_findCompatibilityIssues h
  have hall := possibleMsgs_no_inline
  rw [List.all_eq_true] at hall
  simpa using hall m hmem

/-- C1 witness: the SHORTEST diagnostic, an actually produced issue, does
not mention inline property maps. -/
theorem c1_witness : substrIn (str "nline propert") msgShortest = false :=
  c1_no_inline_property_issue (str "SHORTEST") none msgShortest (by decide)

def c1schema : GraphSchema := ⟨[(str "BelongsTo", [(str "Pod", str "Namespace")])]⟩

def c1query : Str :=
  str "MATCH (p:Pod \x7bmetadata:\x7bname:" ++ [sq] ++ str "x" ++ [sq] ++
    str "\x7d\x7d)-[:BelongsTo]->(ns:Namespace) RETURN p"

/-- the `getText` of the single pattern context of `c1query` (ANTLR
`getText` omits whitespace between tokens). -/
def c1pat : Str :=
  str "(p:Pod\x7bmetadata:\x7bname:" ++ [sq] ++ str "x" ++ [sq] ++
    str "\x7d\x7d)-[:BelongsTo]->(ns:Namespace)"

/-- an oracle modelling the parse of `c1query` (the query contains no
function invocation, so the function-context list is empty). -/
def c1parse : ParseFn := fun t =>
  if t = c1query then
    Except.ok ⟨[], [(str "cypher/match/patternpart", c1pat)]⟩
  else Except.error (str "parse failed")

/-- C1 counterexample: the spec's inline-property-map query, under a schema
that allows `(Pod)-[BelongsTo]->(Namespace)`, is accepted by `validate`
rather than rejected with a Compatibility error. -/
theorem c1_counterexample :
    c1schema.allows (str "BelongsTo") (str "Pod") (str "Namespace") = true ∧
    validate c1parse idE c1schema c1query = ValidationResult.ok := by
  refine ⟨by decide, by decide⟩

end Ariadne

namespace Ariadne

/-!  Claim C4.  Comparison of `validate` results across schema
representations that enumerate the same pair sets in different orders, i.e.
across Python processes with different hash seeds. -/

lemma pairSetSub_mem {l1 l2 : List (Str × Str)} (h : pairSetSub l1 l2 = true)
    {p : Str × Str} (hp : p ∈ l1) : p ∈ l2 := by
  rw [pairSetSub, List.all_eq_true] at h
  simpa using h p hp

lemma lookupPairs_eq_nil_of_not_key {m : List (Str × List (Str × Str))}
    {rel : Str} (h : rel ∉ m.map Prod.fst) : lookupPairs m rel = [] := by
  apply lookupPairs_eq_nil_of_forall_ne
  intro e he hcon
  exact h (hcon ▸ List.mem_map_of_mem Prod.fst he)

lemma schemaEquiv_mem {s1 s2 : GraphSchema} (h : schemaEquivB s1 s2 = true)
    (r : Str) (p : Str × Str) : p ∈ s1.pairsFor r ↔ p ∈ s2.pairsFor r := by
  by_cases hk : r ∈ schemaKeys s1 ++ schemaKeys s2
  · rw [schemaEquivB, List.all_eq_true] at h
    have h2 := h r hk
    rw [pairSetEqB, Bool.and_eq_true] at h2
    exact ⟨fun hp => pairSetSub_mem h2.1 hp, fun hp => pairSetSub_mem h2.2 hp⟩
  · rw [List.mem_append] at hk
    push_neg at hk
    rw [GraphSchema.pairsFor, GraphSchema.pairsFor,
      lookupPairs_eq_nil_of_not_key hk.1, lookupPairs_eq_nil_of_not_key hk.2]

lemma allows_congr {s1 s2 : GraphSchema} (h : schemaEquivB s1 s2 = true) :
    ∀ r a b, s1.allows r a b = s2.allows r a b := by
  intro r a b
  simp only [GraphSchema.allows]
  exact decide_eq_decide.mpr (schemaEquiv_mem h r (a, b))

lemma allowedPairs_equiv {s1 s2 : GraphSchema} (h : schemaEquivB s1 s2 = true)
    (T : List Str) : pairSetEqB (allowedPairs s1 T) (allowedPairs s2 T) = true := by
  rw [pairSetEqB, Bool.and_eq_true]
  constructor
  · rw [pairSetSub, List.all_eq_true]
    intro p hp
    rw [mem_allowedPairs] at hp
    obtain ⟨t, ht, hpt⟩ := hp
    simp only [decide_eq_true_eq]
    rw [mem_allowedPairs]
    exact ⟨t, ht, (schemaEquiv_mem h t p).mp hpt⟩
  · rw [pairSetSub, List.all_eq_true]
    intro p hp
    rw [mem_allowedPairs] at hp
    obtain ⟨t, ht, hpt⟩ := hp
    simp only [decide_eq_true_eq]
    rw [mem_allowedPairs]
    exact ⟨t, ht, (schemaEquiv_mem h t p).mpr hpt⟩

def labelSetSub (l1 l2 : List Str) : Bool :=
  l1.all fun x => decide (x ∈ l2)

/-- membership equality of label lists (two enumerations of one set). -/
def labelSetEqB (l1 l2 : List Str) : Bool :=
  labelSetSub l1 l2 && labelSetSub l2 l1

lemma labelSetEqB_mem {l1 l2 : List Str} (h : labelSetEqB l1 l2 = true)
    (x : Str) : x ∈ l1 ↔ x ∈ l2 := by
  rw [labelSetEqB, Bool.and_eq_true, labelSetSub, labelSetSub,
    List.all_eq_true, List.all_eq_true] at h
  constructor
  · intro hx
    simpa using h.1 x hx
  · intro hx
    simpa using h.2 x hx

lemma labelSetEqB_refl (l : List Str) : labelSetEqB l l = true := by
  rw [labelSetEqB, Bool.and_eq_true]
  constructor <;>
    · rw [labelSetSub, List.all_eq_true]
      intro x hx
      simpa using hx

lemma labelSetEqB_isEmpty {l1 l2 : List Str} (h : labelSetEqB l1 l2 = true) :
    l1.isEmpty = l2.isEmpty := by
  cases hl1 : l1 with
  | nil =>
    cases hl2 : l2 with
    | nil => rfl
    | cons y t =>
      have := (labelSetEqB_mem h y).mpr (by rw [hl2]; exact List.mem_cons_self y t)
      rw [hl1] at this
      exact absurd this (List.not_mem_nil y)
  | cons x t =>
    cases hl2 : l2 with
    | nil =>
      have := (labelSetEqB_mem h x).mp (by rw [hl1]; exact List.mem_cons_self x t)
      rw [hl2] at this
      exact absurd this (List.not_mem_nil x)
    | cons y u => rfl

lemma bool_eq_of_iff {a b : Bool} (h : a = true ↔ b = true) : a = b := by
  cases a <;> cases b <;> simp_all

/-- two faithful set enumerations produce membership-equal label lists. -/
lemma setEnum_labelSetEq {e1 e2 : List Str → List Str} (h1 : IsSetEnum e1)
    (h2 : IsSetEnum e2) (ls : List Str) : labelSetEqB (e1 ls) (e2 ls) = true := by
  rw [labelSetEqB, Bool.and_eq_true]
  constructor
  · rw [labelSetSub, List.all_eq_true]
    intro x hx
    simp only [decide_eq_true_eq]
    exact (h2 ls).mem_iff.mpr ((h1 ls).mem_iff.mp hx)
  · rw [labelSetSub, List.all_eq_true]
    intro x hx
    simp only [decide_eq_true_eq]
    exact (h1 ls).mem_iff.mpr ((h2 ls).mem_iff.mp hx)

/-- `_resolve_labels` under two process enumerations yields membership-equal
label lists. -/
lemma resolveLabels_setEq {e1 e2 : List Str → List Str} (h1 : IsSetEnum e1)
    (h2 : IsSetEnum e2) (explicit : List Str) (var : Option Str)
    (vl : List (Str × List Str)) :
    labelSetEqB (resolveLabels e1 explicit var vl)
      (resolveLabels e2 explicit var vl) = true := by
  unfold resolveLabels
  by_cases he : (!explicit.isEmpty) = true
  · rw [if_pos he, if_pos he]
    exact labelSetEqB_refl explicit
  · rw [if_neg he, if_neg he]
    by_cases hv : varTruthy var = true
    · rw [if_pos hv, if_pos hv]
      cases lookupVar vl (var.getD []) with
      | none => exact labelSetEqB_refl []
      | some ls => exact setEnum_labelSetEq h1 h2 ls
    · rw [if_neg hv, if_neg hv]
      exact labelSetEqB_refl []

/-- `_is_allowed` depends on the label lists only through membership, and on
the schema only through pair-set membership. -/
lemma isAllowed_equiv {s1 s2 : GraphSchema} {L1 L2 R1 R2 : List Str}
    (hs : schemaEquivB s1 s2 = true) (hL : labelSetEqB L1 L2 = true)
    (hR : labelSetEqB R1 R2 = true) (T : List Str) (d : Str) :
    isAllowed s1 T L1 R1 d = isAllowed s2 T L2 R2 d := by
  apply bool_eq_of_iff
  rw [isAllowed_iff, isAllowed_iff]
  constructor
  · rintro ⟨t, ht, l, hl, r, hr, hc⟩
    refine ⟨t, ht, l, (labelSetEqB_mem hL l).mp hl, r,
      (labelSetEqB_mem hR r).mp hr, ?_⟩
    rcases hc with ⟨ha, hd⟩ | ⟨ha, hd⟩
    · exact Or.inl ⟨(allows_congr hs t l r) ▸ ha, hd⟩
    · exact Or.inr ⟨(allows_congr hs t r l) ▸ ha, hd⟩
  · rintro ⟨t, ht, l, hl, r, hr, hc⟩
    refine ⟨t, ht, l, (labelSetEqB_mem hL l).mpr hl, r,
      (labelSetEqB_mem hR r).mpr hr, ?_⟩
    rcases hc with ⟨ha, hd⟩ | ⟨ha, hd⟩
    · exact Or.inl ⟨(allows_congr hs t l r).symm ▸ ha, hd⟩
    · exact Or.inr ⟨(allows_congr hs t r l).symm ▸ ha, hd⟩

/-- equality of violations up to the enumeration orders of `allowed_pairs`
and of the resolved label tuples. -/
def violEquivB (v1 v2 : SchemaViolation) : Bool :=
  (v1.rel_type == v2.rel_type) && labelSetEqB v1.left_labels v2.left_labels &&
    labelSetEqB v1.right_labels v2.right_labels && (v1.direction == v2.direction) &&
    (v1.snippet == v2.snippet) && (v1.rule_path == v2.rule_path) &&
    pairSetEqB v1.allowed_pairs v2.allowed_pairs

def optViolEquivB : Option SchemaViolation → Option SchemaViolation → Bool
  | none, none => true
  | some v1, some v2 => violEquivB v1 v2
  | _, _ => false

def violsEquivB : List SchemaViolation → List SchemaViolation → Bool
  | [], [] => true
  | v1 :: t1, v2 :: t2 => violEquivB v1 v2 && violsEquivB t1 t2
  | _, _ => false

/-- equality of `validate` results up to the set-enumeration orders inside
schema violations (`allowed_pairs` and the resolved label tuples). -/
def resultEquivB : ValidationResult → ValidationResult → Bool
  | .ok, .ok => true
  | .synErr m1, .synErr m2 => m1 == m2
  | .compatErr i1, .compatErr i2 => i1 == i2
  | .schemaErr l1, .schemaErr l2 => violsEquivB l1 l2
  | _, _ => false

lemma pairSetSub_refl (l : List (Str × Str)) : pairSetSub l l = true := by
  rw [pairSetSub, List.all_eq_true]
  intro p hp
  simpa using hp

lemma pairSetEqB_refl (l : List (Str × Str)) : pairSetEqB l l = true := by
  rw [pairSetEqB, pairSetSub_refl]
  rfl

lemma violationFor_congr {e1 e2 : List Str → List Str} {s1 s2 : GraphSchema}
    (hs : schemaEquivB s1 s2 = true) (h1 : IsSetEnum e1) (h2 : IsSetEnum e2)
    (vl : List (Str × List Str)) (rp : Str) (ru : RelationshipUse) :
    optViolEquivB (violationFor e1 s1 vl rp ru) (violationFor e2 s2 vl rp ru) = true := by
  have hLse := resolveLabels_setEq h1 h2 ru.left_labels ru.left_var vl
  have hRse := resolveLabels_setEq h1 h2 ru.right_labels ru.right_var vl
  have hLe := labelSetEqB_isEmpty hLse
  have hRe := labelSetEqB_isEmpty hRse
  by_cases hT : (extractRelTypes ru.rel_text).isEmpty = true
  · simp [violationFor, hT, optViolEquivB]
  · by_cases hLR : ((resolveLabels e1 ru.left_labels ru.left_var vl).isEmpty ||
        (resolveLabels e1 ru.right_labels ru.right_var vl).isEmpty) = true
    · have hLR2 : ((resolveLabels e2 ru.left_labels ru.left_var vl).isEmpty ||
          (resolveLabels e2 ru.right_labels ru.right_var vl).isEmpty) = true := by
        rw [← hLe, ← hRe]
        exact hLR
      simp [violationFor, hT, hLR, hLR2, optViolEquivB]
    · have hLR2 : ¬((resolveLabels e2 ru.left_labels ru.left_var vl).isEmpty ||
          (resolveLabels e2 ru.right_labels ru.right_var vl).isEmpty) = true := by
        rw [← hLe, ← hRe]
        exact hLR
      have hiso := isAllowed_equiv hs hLse hRse (extractRelTypes ru.rel_text)
        (directionFromMatch ru.left_dir ru.right_dir)
      by_cases hA : isAllowed s1 (extractRelTypes ru.rel_text)
          (resolveLabels e1 ru.left_labels ru.left_var vl)
          (resolveLabels e1 ru.right_labels ru.right_var vl)
          (directionFromMatch ru.left_dir ru.right_dir) = true
      · have hA2 : isAllowed s2 (extractRelTypes ru.rel_text)
            (resolveLabels e2 ru.left_labels ru.left_var vl)
            (resolveLabels e2 ru.right_labels ru.right_var vl)
            (directionFromMatch ru.left_dir ru.right_dir) = true := by
          rw [← hiso]
          exact hA
        simp [violationFor, hT, hLR, hLR2, hA, hA2, optViolEquivB]
      · have hA2 : ¬isAllowed s2 (extractRelTypes ru.rel_text)
            (resolveLabels e2 ru.left_labels ru.left_var vl)
            (resolveLabels e2 ru.right_labels ru.right_var vl)
            (directionFromMatch ru.left_dir ru.right_dir) = true := by
          rw [← hiso]
          exact hA
        simp [violationFor, hT, hLR, hLR2, hA, hA2, optViolEquivB, violEquivB,
          hLse, hRse, allowedPairs_equiv hs]

lemma violsEquiv_append {a1 a2 b1 b2 : List SchemaViolation}
    (h1 : violsEquivB a1 a2 = true) (h2 : violsEquivB b1 b2 = true) :
    violsEquivB (a1 ++ b1) (a2 ++ b2) = true := by
  induction a1 generalizing a2 with
  | nil =>
    cases a2 with
    | nil => simpa using h2
    | cons x t => simp [violsEquivB] at h1
  | cons v t ih =>
    cases a2 with
    | nil => simp [violsEquivB] at h1
    | cons w u =>
      rw [violsEquivB, Bool.and_eq_true] at h1
      simp only [List.cons_append, violsEquivB, Bool.and_eq_true]
      exact ⟨h1.1, ih h1.2⟩

lemma violsEquiv_filterMap {f1 f2 : RelationshipUse → Option SchemaViolation}
    (hf : ∀ ru, optViolEquivB (f1 ru) (f2 ru) = true)
    (l : List RelationshipUse) :
    violsEquivB (l.filterMap f1) (l.filterMap f2) = true := by
  induction l with
  | nil => rfl
  | cons ru t ih =>
    have h := hf ru
    rw [List.filterMap_cons, List.filterMap_cons]
    cases h1 : f1 ru with
    | none =>
      cases h2 : f2 ru with
      | none => exact ih
      | some w => rw [h1, h2] at h; simp [optViolEquivB] at h
    | some v =>
      cases h2 : f2 ru with
      | none => rw [h1, h2] at h; simp [optViolEquivB] at h
      | some w =>
        rw [h1, h2] at h
        simp only [optViolEquivB] at h
        simp only [violsEquivB, Bool.and_eq_true]
        exact ⟨h, ih⟩

lemma viols_stage_equiv {e1 e2 : List Str → List Str} {s1 s2 : GraphSchema}
    (hs : schemaEquivB s1 s2 = true) (h1 : IsSetEnum e1) (h2 : IsSetEnum e2)
    (vl : List (Str × List Str)) (pps : List (Str × Str)) :
    violsEquivB
      ((pps.map fun pp =>
        (iterRelationships pp.2).filterMap (violationFor e1 s1 vl pp.1)).flatten)
      ((pps.map fun pp =>
        (iterRelationships pp.2).filterMap (violationFor e2 s2 vl pp.1)).flatten) = true := by
  induction pps with
  | nil => rfl
  | cons pp t ih =>
    simp only [List.map_cons, List.flatten_cons]
    exact violsEquiv_append
      (violsEquiv_filterMap (fun ru => violationFor_congr hs h1 h2 vl pp.1 ru) _) ih

lemma collectViolations_equiv {e1 e2 : List Str → List Str} {s1 s2 : GraphSchema}
    (hs : schemaEquivB s1 s2 = true) (h1 : IsSetEnum e1) (h2 : IsSetEnum e2)
    (pps : List (Str × Str)) :
    violsEquivB (collectViolations e1 s1 pps) (collectViolations e2 s2 pps) = true := by
  simp only [collectViolations]
  exact viols_stage_equiv hs h1 h2 _ pps

lemma violsEquiv_isEmpty {l1 l2 : List SchemaViolation}
    (h : violsEquivB l1 l2 = true) : l1.isEmpty = l2.isEmpty := by
  cases l1 <;> cases l2 <;> simp_all [violsEquivB]

lemma runChecks_equiv {e1 e2 : List Str → List Str} {s1 s2 : GraphSchema}
    (hs : schemaEquivB s1 s2 = true) (h1 : IsSetEnum e1) (h2 : IsSetEnum e2)
    (text : Str) (asts : List AstView) (fb : Bool) :
    resultEquivB (runChecks e1 s1 text asts fb) (runChecks e2 s2 text asts fb) = true := by
  have hv := collectViolations_equiv hs h1 h2 ((asts.map AstView.patternParts).flatten)
  have he := violsEquiv_isEmpty hv
  simp only [runChecks]
  by_cases hc : (!(findCompatibilityIssues text (astFuncTexts asts fb)).isEmpty) = true
  · rw [if_pos hc, if_pos hc]
    simp [resultEquivB]
  · rw [if_neg hc, if_neg hc]
    by_cases hvi : (!(collectViolations e1 s1
        ((asts.map AstView.patternParts).flatten)).isEmpty) = true
    · rw [if_pos hvi, if_pos (by rw [← he]; exact hvi)]
      exact hv
    · rw [if_neg hvi, if_neg (by rw [← he]; exact hvi)]
      rfl

/-- C4 (amended): for a fixed in-memory schema representation and set
enumeration the modelled `validate` is a function, and across Python
processes (a process being a pair of a schema representation and a
`tuple(frozenset)` enumeration, both hash-seed dependent) `validate`
produces the same variant with identical ordered contents except for the
enumeration orders inside each violation: its `allowed_pairs` list and its
resolved `left_labels`/`right_labels` tuples, which follow the process's
set-iteration order. -/
theorem c4_deterministic_up_to_set_order (parse : ParseFn)
    (e1 e2 : List Str → List Str) (s1 s2 : GraphSchema) (text : Str)
    (hs : schemaEquivB s1 s2 = true) (h1 : IsSetEnum e1) (h2 : IsSetEnum e2) :
    resultEquivB (validate parse e1 s1 text) (validate parse e2 s2 text) = true := by
  cases hp : parse text with
  | ok a =>
    rw [validate_eq_runChecks_of_ok hp, validate_eq_runChecks_of_ok hp]
    exact runChecks_equiv hs h1 h2 text [a] false
  | error m0 =>
    cases hn : parse (normalizeExistsSubqueries text) with
    | ok a =>
      rw [validate_eq_of_norm_ok hp hn, validate_eq_of_norm_ok hp hn]
      exact runChecks_equiv hs h1 h2 text [a] false
    | error m2 =>
      rw [validate_eq_of_fallback hp hn, validate_eq_of_fallback hp hn]
      by_cases hf : (parseWithFallback parse (normalizeExistsSubqueries text)).isEmpty = true
      · rw [if_pos hf, if_pos hf]
        simp [resultEquivB]
      · rw [if_neg hf, if_neg hf]
        exact runChecks_equiv hs h1 h2 text _ true

/-!  Demo fixtures shared by the C4 and C5 counterexamples: a schema whose
`Manages` pair set has two elements, represented under two enumeration
orders, and a query producing a schema violation via `Manages`. -/

def demoEdges : List (Str × Str × Str) :=
  [(str "Service", str "Manages", str "EndpointSlice"),
   (str "Deployment", str "Manages", str "ReplicaSet")]

def demoS1 : GraphSchema :=
  ⟨[(str "Manages",
     [(str "Service", str "EndpointSlice"), (str "Deployment", str "ReplicaSet")])]⟩

def demoS2 : GraphSchema :=
  ⟨[(str "Manages",
     [(str "Deployment", str "ReplicaSet"), (str "Service", str "EndpointSlice")])]⟩

def demoQuery : Str := str "MATCH (x:Deployment)-[:Manages]->(y:Namespace) RETURN x"

def demoPat : Str := str "(x:Deployment)-[:Manages]->(y:Namespace)"

/-- an oracle modelling the parse of `demoQuery`. -/
def demoParse : ParseFn := fun t =>
  if t = demoQuery then
    Except.ok ⟨[], [(str "cypher/match/patternpart", demoPat)]⟩
  else Except.error (str "parse failed")

/-!  A second fixture exercising the label-tuple enumeration of
`_resolve_labels`: a variable accumulating two labels at its first
occurrence is re-used unlabeled, so the recorded violation's `left_labels`
is `tuple(frozenset)` of a two-element set. -/

def c4lQuery : Str := str "MATCH (p:Pod:Job) WITH p MATCH (p)-[:X]->(n:N) RETURN n"

def c4lPat1 : Str := str "(p:Pod:Job)"

def c4lPat2 : Str := str "(p)-[:X]->(n:N)"

/-- an oracle modelling the parse of `c4lQuery` (one pattern context per
MATCH clause). -/
def c4lParse : ParseFn := fun t =>
  if t = c4lQuery then
    Except.ok ⟨[], [(str "cypher/match/patternpart", c4lPat1),
                    (str "cypher/match/patternpart", c4lPat2)]⟩
  else Except.error (str "parse failed")

/-- C4 counterexample: different Python processes (modelled as different
faithful frozenset enumerations) make `validate` return different ordered
contents on the same schema and input, in two independent places: the
recorded violation's `allowed_pairs` (two pair-set enumerations of the same
constructed schema) and its resolved `left_labels` tuple (the identity and
reversed enumerations of the accumulated label set of `p`). -/
theorem c4_counterexample :
    schemaEquivB demoS1 demoS2 = true ∧
    validRepOf demoEdges demoS1 = true ∧
    validRepOf demoEdges demoS2 = true ∧
    validate demoParse idE demoS1 demoQuery ≠ validate demoParse idE demoS2 demoQuery ∧
    (resultViolations (validate c4lParse idE emptySchema c4lQuery)).map
      SchemaViolation.left_labels = [[str "Pod", str "Job"]] ∧
    (resultViolations (validate c4lParse revE emptySchema c4lQuery)).map
      SchemaViolation.left_labels = [[str "Job", str "Pod"]] ∧
    validate c4lParse idE emptySchema c4lQuery ≠ validate c4lParse revE emptySchema c4lQuery := by
  refine ⟨by decide, by decide, by decide, by decide, by decide, by decide, by decide⟩

/-- C4 witness: on the label fixture, the identity-enumeration run and the
reversed-enumeration run agree up to set-enumeration order. -/
theorem c4_witness :
    resultEquivB (validate c4lParse idE emptySchema c4lQuery)
      (validate c4lParse revE emptySchema c4lQuery) = true :=
  c4_deterministic_up_to_set_order c4lParse idE revE emptySchema emptySchema
    c4lQuery (by decide) (fun ls => List.Perm.refl ls)
    (fun ls => List.reverse_perm ls)

/-- C5 counterexample: under a faithful representation of the schema built
from `demoEdges` (a legitimate frozenset enumeration), the recorded
violation's `allowed_pairs` is not ordered by first-declared appearance in
the construction input. -/
theorem c5_counterexample :
    validRepOf demoEdges demoS2 = true ∧
    specDeclaredPairs demoEdges [str "Manages"] =
      [(str "Service", str "EndpointSlice"), (str "Deployment", str "ReplicaSet")] ∧
    (resultViolations (validate demoParse idE demoS2 demoQuery)).map
        SchemaViolation.allowed_pairs =
      [[(str "Deployment", str "ReplicaSet"), (str "Service", str "EndpointSlice")]] ∧
    ¬((resultViolations (validate demoParse idE demoS2 demoQuery)).map
        SchemaViolation.allowed_pairs =
      [specDeclaredPairs demoEdges [str "Manages"]]) := by
  refine ⟨by decide, by decide, by decide, by decide⟩

end Ariadne
